import Mathlib

/-!
Verification of the crawl-and-enrichment pipeline of this repository
against its natural-language specification.

The development shallowly embeds the Python source:
pure functions become Lean functions, in-place mutation of lead lists
becomes explicit list rebuilding, network calls become oracle parameters
(pure functions supplied from outside), and module-level caches become
explicitly threaded association lists.  CPython strings are modelled by
Lean String (the data involved is ASCII), CPython ints by Int, and the
few float expressions in scoring (int(weight * 0.6) and friends) by
exact integer arithmetic, which agrees with CPython binary-float
evaluation at the configured weight magnitudes.
-/

/-- The central contact record, from the InvestorLead dataclass in
src/adapters/base.py.  The email_status attribute is not declared on the
dataclass; it is attached dynamically by the engine.  We model it as a
field defaulting to "unknown", matching the stub in src/test_greyhat_yield.py
and the schema default in src/api/schemas.py. -/
structure Lead where
  name : String
  email : String := "N/A"
  role : String := "N/A"
  fund : String := "N/A"
  focus_areas : List String := []
  stage : String := "N/A"
  check_size : String := "N/A"
  location : String := "N/A"
  linkedin : String := "N/A"
  website : String := "N/A"
  source : String := ""
  scraped_at : String := ""
  lead_score : Int := 0
  tier : String := ""
  email_status : String := "unknown"
  deriving Repr, DecidableEq

/-!  String primitives are re-implemented by structural recursion over
the character list so that every concrete scenario below evaluates
inside the kernel; they agree with the CPython string methods on the
ASCII data the pipeline handles. -/

/-- Python str.lower for the ASCII data handled by the pipeline. -/
def pyLower (s : String) : String := String.mk (s.data.map Char.toLower)

/-- Python str.upper for the ASCII data handled by the pipeline. -/
def pyUpper (s : String) : String := String.mk (s.data.map Char.toUpper)

/-- Python str.strip(). -/
def pyTrim (s : String) : String :=
  String.mk (((s.data.dropWhile Char.isWhitespace).reverse.dropWhile
    Char.isWhitespace).reverse)

/-- Character-count take on a string. -/
def pyTake (s : String) (n : Nat) : String := String.mk (s.data.take n)

/-- Character-count drop on a string. -/
def pyDrop (s : String) (n : Nat) : String := String.mk (s.data.drop n)

/-- Python str.startswith. -/
def startsWithB (s pat : String) : Bool := pat.data.isPrefixOf s.data

/-- Python str.endswith. -/
def pyEndsWith (s pat : String) : Bool :=
  pat.data.reverse.isPrefixOf s.data.reverse

/-- One fuel-metered pass of left-to-right non-overlapping pattern
replacement (fuel bounds the number of scan steps). -/
def replaceCharsFuel (pat rep : List Char) : Nat → List Char → List Char
  | 0, l => l
  | _ + 1, [] => []
  | fuel + 1, c :: rest =>
    if pat.isPrefixOf (c :: rest) then
      rep ++ replaceCharsFuel pat rep fuel ((c :: rest).drop pat.length)
    else c :: replaceCharsFuel pat rep fuel rest

/-- Python str.replace: replace every non-overlapping occurrence, left
to right (every pattern the pipeline replaces is nonempty). -/
def pyReplace (s pat rep : String) : String :=
  if pat = "" then s
  else String.mk (replaceCharsFuel pat.data rep.data s.data.length s.data)

/-- Decimal value of an all-digit character list (int(...) on the
digit-only strings the scorer parses). -/
def digitsToNat (l : List Char) : Nat :=
  l.foldl (fun n c => n * 10 + (c.toNat - 48)) 0

/-- Contiguous-sublist test on character lists. -/
def isSubChars (needle : List Char) : List Char → Bool
  | [] => needle = []
  | c :: rest => needle.isPrefixOf (c :: rest) || isSubChars needle rest

/-- Python substring membership test: a in b. -/
def substrB (needle hay : String) : Bool := isSubChars needle.data hay.data

/-- Accumulator pass behind pySplit. -/
def splitWsAux : List Char → List Char → List String
  | [], acc => if acc = [] then [] else [String.mk acc.reverse]
  | c :: rest, acc =>
    if c.isWhitespace then
      if acc = [] then splitWsAux rest []
      else String.mk acc.reverse :: splitWsAux rest []
    else splitWsAux rest (c :: acc)

/-- Python str.split() with no argument: split on whitespace runs,
dropping empty pieces. -/
def pySplit (s : String) : List String := splitWsAux s.data []

/-- Python str.rstrip "."  (used on cleaned person names). -/
def rstripDot (s : String) : String :=
  String.mk ((s.data.reverse.dropWhile (fun c => c = '.')).reverse)

/-- Python str.rstrip ".,;:"  (used on name words in _is_person_name). -/
def rstripPunct (s : String) : String :=
  String.mk ((s.data.reverse.dropWhile
    (fun c => c = '.' ∨ c = ',' ∨ c = ';' ∨ c = ':')).reverse)

/-- Association-list lookup, modelling Python dict access keyed by strings. -/
def lookupAssoc {α : Type} (l : List (String × α)) (k : String) : Option α :=
  (l.find? (fun kv => kv.1 = k)).map (fun kv => kv.2)

/-- List fold that rewrites each element while threading a state left to
right: the shape of every in-place mutation loop over a lead list in the
source. -/
def mapAccumLeads {σ α β : Type} (f : σ → α → σ × β) : σ → List α → σ × List β
  | s, [] => (s, [])
  | s, a :: rest =>
    let p := f s a
    let q := mapAccumLeads f p.1 rest
    (q.1, p.2 :: q.2)

/-!  ### Lead Scoring Engine — src/enrichment/scoring.py

The configuration is the "sensible defaults" dictionary of
LeadScorer._load_config (the shape every claim about scoring uses).
CPython evaluates int(weight * 0.6), int(weight * 0.2) and
int(weight * 0.15) with binary floats; at the integer weight magnitudes
involved the rounded products coincide with exact rational evaluation,
so we embed them as floor divisions of exact integer products.
-/

structure Weights where
  stage_match : Int := 30
  sector_match : Int := 25
  check_size_fit : Int := 20
  portfolio_relevance : Int := 15
  recency : Int := 10
  deriving Repr, DecidableEq

structure TierCfg where
  min_score : Int
  label : String
  deriving Repr, DecidableEq

structure Tiers where
  hot : TierCfg := { min_score := 80, label := "🔴 HOT" }
  warm : TierCfg := { min_score := 60, label := "🟡 WARM" }
  cool : TierCfg := { min_score := 40, label := "🟢 COOL" }
  cold : TierCfg := { min_score := 0, label := "⚪ COLD" }
  deriving Repr, DecidableEq

structure Modifiers where
  has_email : Int := 10
  has_linkedin : Int := 5
  no_email : Int := -15
  deriving Repr, DecidableEq

/-- startup_profile: stage "seed", sectors [], and no configured
target_check_size_min / target_check_size_max (the .get defaults 0 and
float("inf") apply; infinity is modelled as none). -/
structure StartupProfile where
  stage : String := "seed"
  sectors : List String := []
  target_check_size_min : Int := 0
  target_check_size_max : Option Int := none
  deriving Repr, DecidableEq

structure ScoringCfg where
  weights : Weights := {}
  tiers : Tiers := {}
  modifiers : Modifiers := {}
  profile : StartupProfile := {}
  deriving Repr, DecidableEq

def defaultScoringCfg : ScoringCfg := {}

/-- LeadScorer._score_stage. -/
def score_stage (cfg : ScoringCfg) (investor_stage : String) : Int :=
  let weight := cfg.weights.stage_match
  let my_stage := pyLower cfg.profile.stage
  let their_stage := pyLower investor_stage
  if their_stage = "" ∨ their_stage = "n/a" then Int.fdiv weight 3
  else if substrB my_stage their_stage ∨ substrB their_stage my_stage then weight
  else
    let stage_order := ["pre-seed", "seed", "series-a", "series-b", "growth"]
    match stage_order.findIdx? (fun s => substrB s my_stage),
          stage_order.findIdx? (fun s => substrB s their_stage) with
    | some my_idx, some their_idx =>
      let distance := (Int.ofNat my_idx - Int.ofNat their_idx).natAbs
      if distance = 1 then Int.fdiv (weight * 6) 10
      else if distance = 2 then Int.fdiv (weight * 2) 10
      else 0
    | _, _ => Int.fdiv weight 3

/-- LeadScorer._score_sectors.  Python builds sets of lowercased sector
strings; sets are modelled by deduplicated lists, and the fuzzy overlap
count only depends on distinct members.  The final capped-ratio line
int(weight * min(match_ratio * 1.5, 1.0)) is exact integer arithmetic:
weight * min(3*overlap, 2*n) / (2*n) floored. -/
def score_sectors (cfg : ScoringCfg) (investor_sectors : List String) : Int :=
  let weight := cfg.weights.sector_match
  let my_sectors := (cfg.profile.sectors.map pyLower).eraseDups
  if investor_sectors = [] then Int.fdiv weight 4
  else
    let their_sectors := (investor_sectors.map pyLower).eraseDups
    let overlap : Int := Int.ofNat ((my_sectors.filter (fun m =>
      their_sectors.any (fun t => substrB m t ∨ substrB t m))).length)
    if my_sectors = [] then Int.fdiv weight 3
    else
      let n : Int := Int.ofNat my_sectors.length
      Int.fdiv (weight * min (3 * overlap) (2 * n)) (2 * n)

/-- check_size.replace("K","000").replace("M","000000"). -/
def expandKM (s : String) : String :=
  pyReplace (pyReplace s "K" "000") "M" "000000"

/-- re.findall of the pattern "[0-9,]+": maximal runs of digits/commas. -/
def digitRunsAux : List Char → List Char → List String
  | [], acc => if acc = [] then [] else [String.mk acc.reverse]
  | c :: rest, acc =>
    if c.isDigit ∨ c = ',' then digitRunsAux rest (c :: acc)
    else if acc = [] then digitRunsAux rest []
    else String.mk acc.reverse :: digitRunsAux rest []

def digitRuns (s : String) : List String := digitRunsAux s.data []

/-- int(n.replace(",", "")) over each run; a run of only commas raises
ValueError, modelled as none. -/
def parseAmounts (runs : List String) : Option (List Int) :=
  runs.mapM (fun r =>
    let d := pyReplace r "," ""
    if d = "" then none else some (Int.ofNat (digitsToNat d.data)))

/-- LeadScorer._score_check_size. -/
def score_check_size (cfg : ScoringCfg) (check_size : String) : Int :=
  let weight := cfg.weights.check_size_fit
  if check_size = "" ∨ check_size = "N/A" then Int.fdiv weight 3
  else
    let numbers := digitRuns (expandKM check_size)
    if numbers = [] then Int.fdiv weight 3
    else
      match parseAmounts numbers with
      | none => Int.fdiv weight 3
      | some amounts =>
        match amounts with
        | [] => Int.fdiv weight 3
        | a :: rest =>
          let inv_min := rest.foldl min a
          let inv_max := rest.foldl max a
          let okMax := match cfg.profile.target_check_size_max with
            | none => true
            | some t => inv_min ≤ t
          if okMax = true ∧ cfg.profile.target_check_size_min ≤ inv_max then weight
          else Int.fdiv (weight * 15) 100

/-- LeadScorer._get_tier. -/
def get_tier (cfg : ScoringCfg) (s : Int) : String :=
  if s ≥ cfg.tiers.hot.min_score then cfg.tiers.hot.label
  else if s ≥ cfg.tiers.warm.min_score then cfg.tiers.warm.label
  else if s ≥ cfg.tiers.cool.min_score then cfg.tiers.cool.label
  else cfg.tiers.cold.label

/-- LeadScorer.score: the three dimension scores, the contact-quality
modifiers, the clamp to [0, 100] and the tier lookup. -/
def score (cfg : ScoringCfg) (lead : Lead) : Int × String :=
  let total := score_stage cfg lead.stage
  let total := total + score_sectors cfg lead.focus_areas
  let total := total + score_check_size cfg lead.check_size
  let total := total +
    (if lead.email ≠ "" ∧ lead.email ≠ "N/A" then cfg.modifiers.has_email
     else cfg.modifiers.no_email)
  let total := total +
    (if lead.linkedin ≠ "" ∧ lead.linkedin ≠ "N/A" then cfg.modifiers.has_linkedin
     else 0)
  let total := max 0 (min 100 total)
  (total, get_tier cfg total)

/-- The per-lead update performed inside LeadScorer.score_batch. -/
def assign_score (cfg : ScoringCfg) (l : Lead) : Lead :=
  let st := score cfg l
  { l with lead_score := st.1, tier := st.2 }

/-- LeadScorer.score_batch: score every lead in place, then return the
list sorted by score descending (Python sorted is stable; so is
mergeSort). -/
def score_batch (cfg : ScoringCfg) (leads : List Lead) : List Lead :=
  (leads.map (assign_score cfg)).mergeSort (fun a b => b.lead_score ≤ a.lead_score)

/-!  ### Email Pattern Guesser — src/enrichment/email_guesser.py -/

/-- The eight canonical local-part patterns of the module-level _PATTERNS
list, in source order. -/
inductive EPattern where
  | firstDotLast
  | firstOnly
  | fLast
  | firstLast
  | fDotLast
  | lastOnly
  | firstUnderLast
  | lastDotFirst
  deriving Repr, DecidableEq

def PATTERNS : List EPattern :=
  [.firstDotLast, .firstOnly, .fLast, .firstLast,
   .fDotLast, .lastOnly, .firstUnderLast, .lastDotFirst]

/-- pattern.split("@")[0].format(...): the local part a pattern builds. -/
def patternLocal (p : EPattern) (first last f : String) : String :=
  match p with
  | .firstDotLast => first ++ "." ++ last
  | .firstOnly => first
  | .fLast => f ++ last
  | .firstLast => first ++ last
  | .fDotLast => f ++ "." ++ last
  | .lastOnly => last
  | .firstUnderLast => first ++ "_" ++ last
  | .lastDotFirst => last ++ "." ++ first

/-- pattern.format(first=..., last=..., f=..., domain=...). -/
def applyPattern (p : EPattern) (first last f domain : String) : String :=
  patternLocal p first last f ++ "@" ++ domain

/-- _normalize: lowercase, strip accents, keep only ascii alpha.  For
the ASCII data this development evaluates on, NFKD plus the
ascii-ignoring encode round-trip is the identity, so only the lowering
and the [^a-z] filter remain. -/
def normalize_name (s : String) : String :=
  String.mk ((pyLower s).data.filter (fun c => 'a' ≤ c ∧ c ≤ 'z'))

/-- name.strip().split(). -/
def nameParts (name : String) : List String := pySplit (pyTrim name)

/-- The words that flag a company/fund rather than a person
(module-level _COMPANY_WORDS set). -/
def COMPANY_WORDS : List String :=
  ["capital", "ventures", "partners", "fund", "group", "holdings",
   "management", "investments", "equity", "advisors", "advisory",
   "associates", "labs", "studio", "studios", "foundation",
   "initiative", "institute", "accelerator", "incubator", "llc",
   "inc", "corp", "ltd", "limited", "gmbh", "sa", "ag",
   "news", "our", "the", "about", "additional", "strategic",
   "continuity", "growth", "seed", "series", "demo", "day",
   "portfolio", "companies", "company", "team", "meet", "join",
   "alumni", "network", "community", "program", "programs",
   "scout", "scouts", "bio", "life", "sciences", "games",
   "start", "path", "next", "catalyst", "innovation",
   "development", "fundamentals", "research", "digital",
   "global", "international", "technology", "technologies",
   "operating", "platform", "select", "emerging",
   "twitter", "linkedin", "facebook", "instagram", "youtube",
   "follow", "contact", "apply", "subscribe", "sign", "read",
   "learn", "view", "visit", "more", "blog", "press", "media",
   "on", "in", "at", "for", "to", "of", "an", "by", "from",
   "cookies", "cookie", "functional", "performance", "targeting",
   "marketing", "privacy", "overview", "principles", "core",
   "leadership", "history", "availability", "resources",
   "navigation", "submission", "submissions", "board",
   "shared", "values", "philosophy", "customers", "colleagues",
   "communities", "activity", "putting", "challenging",
   "convention", "smarter", "together", "humbly", "check",
   "your", "every", "stage", "how", "we", "help",
   "startups", "links", "additional", "information", "connect"]

/-- The sequential title-stripping loop shared by _is_person_name and
_clean_person_name. -/
def stripNameTitles (s : String) : String :=
  ["Meet ", "About ", "Dr. ", "Prof. "].foldl
    (fun c p => if startsWithB c p then pyDrop c p.length else c) s

/-- _is_person_name. -/
def is_person_name (name : String) : Bool :=
  if name = "" ∨ name = "N/A" ∨ pyLower name = "unknown" then false
  else
    let cleaned := rstripDot (stripNameTitles (pyTrim name))
    let words := pySplit (pyLower cleaned)
    if words.length < 2 ∨ words.length > 5 then false
    else if words.any (fun w => COMPANY_WORDS.contains (rstripPunct w)) then false
    else if cleaned = pyUpper cleaned ∧ words.length > 2 then false
    else if cleaned.data.any Char.isDigit then false
    else true

/-- _clean_person_name. -/
def clean_person_name (name : String) : String :=
  pyTrim (rstripDot (stripNameTitles (pyTrim name)))

/-- Drop everything up to and including the first "://" occurrence
(scheme separator), leaving the authority-plus-path remainder. -/
def afterScheme : List Char → List Char
  | [] => []
  | c :: rest =>
    if [':', '/', '/'].isPrefixOf (c :: rest) then rest.drop 2
    else afterScheme rest

/-- urlparse(url).netloc for the absolute URLs the pipeline builds:
the characters between "://" and the first of "/", "?", "#". -/
def netlocOf (url : String) : String :=
  String.mk ((afterScheme url.data).takeWhile
    (fun c => c ≠ '/' ∧ c ≠ '?' ∧ c ≠ '#'))

/-- email_guesser._extract_domain: bare domain from a website URL,
stripping one leading "www.". -/
def extract_domain (website : String) : Option String :=
  if website = "" ∨ website = "N/A" then none
  else
    let url := if substrB "://" website then website else "https://" ++ website
    let netloc := pyLower (netlocOf url)
    let netloc := if startsWithB netloc "www." then pyDrop netloc 4 else netloc
    if netloc = "" then none else some netloc

/-- email.partition("@"): the pieces before and after the first "@"
(both empty-on-right when "@" is absent). -/
def partitionAtSign (s : String) : String × String :=
  match s.data.findIdx? (fun c => c = '@') with
  | none => (s, "")
  | some i => (String.mk (s.data.take i), String.mk (s.data.drop (i + 1)))

/-- detect_pattern: which canonical pattern produced a known email for a
given person name. -/
def detect_pattern (email name : String) : Option EPattern :=
  let parts := nameParts name
  if parts.length < 2 then none
  else
    let first := normalize_name (parts.headD "")
    let last := normalize_name (parts.getLastD "")
    if first = "" ∨ last = "" then none
    else
      let pr := partitionAtSign email
      if pr.1 = "" ∨ pr.2 = "" then none
      else
        let lcl := pyLower pr.1
        let f := pyTake first 1
        PATTERNS.find? (fun p => patternLocal p first last f = lcl)

/-- generate_candidates: all eight candidates for a name and domain. -/
def generate_candidates (name domain : String) : List String :=
  let parts := nameParts name
  if parts.length < 2 then []
  else
    let first := normalize_name (parts.headD "")
    let last := normalize_name (parts.getLastD "")
    if first = "" ∨ last = "" then []
    else
      let f := pyTake first 1
      PATTERNS.map (fun p => applyPattern p first last f domain)

/-- The _PatternCache dict: domain → detected pattern. -/
abbrev PatternCache := List (String × EPattern)

def cacheGet (c : PatternCache) (d : String) : Option EPattern := lookupAssoc c d

/-- _PatternCache.learn: detect and record, never overwriting. -/
def cacheLearn (c : PatternCache) (domain email name : String) : PatternCache :=
  if (cacheGet c domain).isSome then c
  else
    match detect_pattern email name with
    | some p => c ++ [(domain, p)]
    | none => c

/-- The raw dict write self._pattern_cache._patterns[domain] = pattern
performed by _discover_domain_pattern. -/
def cacheSet (c : PatternCache) (d : String) (p : EPattern) : PatternCache :=
  if (cacheGet c d).isSome then
    c.map (fun kv => if kv.1 = d then (d, p) else kv)
  else c ++ [(d, p)]

/-- _PatternCache.apply: instantiate the cached pattern for a new
contact at the domain. -/
def cacheApply (c : PatternCache) (name domain : String) : Option String :=
  match cacheGet c domain with
  | none => none
  | some p =>
    let parts := nameParts name
    if parts.length < 2 then none
    else
      let first := normalize_name (parts.headD "")
      let last := normalize_name (parts.getLastD "")
      if first = "" ∨ last = "" then none
      else some (applyPattern p first last (pyTake first 1) domain)

/-- The truthy-and-not-sentinel email test
lead.email and lead.email not in ("N/A", "N/A (invalid)")
used by every enrichment stage to select contacts. -/
def hasEmailPy (e : String) : Bool :=
  e ≠ "" ∧ e ≠ "N/A" ∧ e ≠ "N/A (invalid)"

/-- The network-facing behavior of the guesser's validator, supplied as
a pure oracle: the SMTP self-test verdict, per-candidate RCPT
deliverability, and per-domain MX existence (the net result of
verify_mx on probe@domain). -/
structure GuessOracle where
  smtp_ok : Bool
  deliverable : String → Bool
  has_mx : String → Bool

/-- EmailGuesser state: the pattern cache and the per-domain MX cache. -/
structure GuesserState where
  patterns : PatternCache := []
  mx_cache : List (String × Bool) := []
  deriving Repr, DecidableEq

/-- guess_batch Phase 1: learn patterns from leads that already carry an
email. -/
def guessLearnPhase (c : PatternCache) (leads : List Lead) : PatternCache :=
  leads.foldl (fun c l =>
    if hasEmailPy l.email ∧ substrB "@" l.email then
      match extract_domain l.website with
      | some d => if is_person_name l.name then cacheLearn c d l.email l.name else c
      | none => c
    else c) c

/-- guess_batch Phase 1.5 target selection: one email-less person lead
per domain that has no cached pattern yet (dict insertion order). -/
def probeTargets (c : PatternCache) (leads : List Lead) : List (String × Lead) :=
  leads.foldl (fun acc l =>
    if hasEmailPy l.email then acc
    else if ¬ is_person_name l.name then acc
    else
      match extract_domain l.website with
      | some d =>
        if (cacheGet c d).isNone ∧ (acc.find? (fun kv => kv.1 = d)).isNone
        then acc ++ [(d, l)] else acc
      | none => acc) []

/-- The candidate loop inside _discover_domain_pattern: first
deliverable candidate whose pattern is detectable wins. -/
def discoverLoop (o : GuessOracle) (clean domain : String) :
    List String → PatternCache → PatternCache
  | [], c => c
  | cand :: rest, c =>
    if o.deliverable cand then
      match detect_pattern cand clean with
      | some p => cacheSet c domain p
      | none => discoverLoop o clean domain rest c
    else discoverLoop o clean domain rest c

/-- _discover_domain_pattern: SMTP-probe the top-3 candidates of one
contact to learn the domain's pattern. -/
def discover_domain_pattern (o : GuessOracle) (c : PatternCache)
    (name domain : String) : PatternCache :=
  let clean := clean_person_name name
  let candidates := (generate_candidates clean domain).take 3
  if candidates = [] then c
  else if ¬ o.smtp_ok then c
  else discoverLoop o clean domain candidates c

/-- guess_batch Phase 1.5: probe each selected domain in order. -/
def guessProbePhase (o : GuessOracle) (c : PatternCache) (leads : List Lead) :
    PatternCache :=
  (probeTargets c leads).foldl
    (fun c dl => discover_domain_pattern o c dl.2.name dl.1) c

/-- guess_batch Phase 2: apply known patterns to email-less person
leads (no MX check — the pattern came from a live email). -/
def guessApplyPhase (c : PatternCache) (leads : List Lead) : List Lead :=
  leads.map (fun l =>
    if hasEmailPy l.email then l
    else if ¬ is_person_name l.name then l
    else
      match extract_domain l.website with
      | some d =>
        match cacheApply c l.name d with
        | some e => { l with email := e }
        | none => l
      | none => l)

/-- _check_domain_mx: MX once per domain, cached. -/
def check_domain_mx (o : GuessOracle) (st : GuesserState) (domain : String) :
    Bool × GuesserState :=
  match lookupAssoc st.mx_cache domain with
  | some b => (b, st)
  | none =>
    let b := o.has_mx domain
    (b, { st with mx_cache := st.mx_cache ++ [(domain, b)] })

/-- _generate_best_email: learned pattern first, else the statistical
default first.last@domain. -/
def generate_best_email (c : PatternCache) (name domain : String) :
    Option String :=
  let clean := clean_person_name name
  match cacheApply c clean domain with
  | some e => some e
  | none =>
    let parts := nameParts clean
    if parts.length < 2 then none
    else
      let first := normalize_name (parts.headD "")
      let last := normalize_name (parts.getLastD "")
      if first = "" ∨ last = "" then none
      else some (applyPattern .firstDotLast first last (pyTake first 1) domain)

/-- EmailGuesser.guess for one contact: person gate, domain extraction,
cached MX gate, then the best pattern. -/
def guessOne (o : GuessOracle) (st : GuesserState) (name website : String) :
    Option String × GuesserState :=
  if ¬ is_person_name name then (none, st)
  else
    match extract_domain website with
    | none => (none, st)
    | some d =>
      let pr := check_domain_mx o st d
      if ¬ pr.1 then (none, pr.2)
      else (generate_best_email pr.2.patterns name d, pr.2)

/-- The _process closure of guess_batch Phase 3 for one lead: guess,
assign, and learn the produced email as the domain's pattern. -/
def guessStep (o : GuessOracle) (st : GuesserState) (l : Lead) :
    GuesserState × Lead :=
  if hasEmailPy l.email then (st, l)
  else if ¬ is_person_name l.name then (st, l)
  else
    let pr := guessOne o st l.name l.website
    match pr.1 with
    | none => (pr.2, l)
    | some e =>
      let pats :=
        match extract_domain l.website with
        | some d => cacheLearn pr.2.patterns d e l.name
        | none => pr.2.patterns
      ({ pr.2 with patterns := pats }, { l with email := e })

/-- EmailGuesser.guess_batch: Phase 1 learn, Phase 1.5 SMTP pattern
discovery, Phase 2 apply learned patterns, Phase 3 MX-gated default
pattern (the concurrent gather is modelled in list order). -/
def guess_batch (o : GuessOracle) (leads : List Lead) :
    GuesserState × List Lead :=
  let c1 := guessLearnPhase [] leads
  let c2 := guessProbePhase o c1 leads
  let leads2 := guessApplyPhase c2 leads
  mapAccumLeads (guessStep o) { patterns := c2, mx_cache := [] } leads2

/-!  ### Fuzzy email-to-name matching — src/deep_crawl.py

_match_email_to_name returns confidence scores drawn from the eleven
decimal constants 1.0, 0.9, 0.85, 0.8, 0.7, 0.6, 0.5, 0.4 and 0.0; the
code only compares these constants with each other and with the 0.3
threshold, and that ordering is unchanged by the binary-float
representation, so scores are embedded scaled by 100 as naturals. -/

/-- _match_email_to_name, scores scaled by 100. -/
def match_email_to_name (email name : String) : Nat :=
  let lcl := pyLower (partitionAtSign email).1
  let parts := pySplit (pyLower name)
  if parts.length < 2 then 0
  else
    let first := normalize_name (parts.headD "")
    let last := normalize_name (parts.getLastD "")
    if first = "" ∨ last = "" then 0
    else
      if lcl = first ++ "." ++ last then 100
      else if lcl = first then 80
      else if lcl = first ++ last then 90
      else if lcl = pyTake first 1 ++ last then 85
      else if lcl = pyTake first 1 ++ "." ++ last then 85
      else if lcl = last then 60
      else if lcl = first ++ "_" ++ last then 90
      else if lcl = last ++ "." ++ first then 80
      else if substrB first lcl ∧ substrB last lcl then 70
      else if substrB first lcl then 40
      else if substrB last lcl then 50
      else 0

/-- The shared argmax loop over the unmatched pool: best_score starts
at 0.0 and only strict improvements are kept, so the first maximum
wins and a zero-scoring pool yields no candidate. -/
def bestMatchOver (pool : List String) (name : String) :
    Option (String × Nat) :=
  pool.foldl (fun best e =>
    let s := match_email_to_name e name
    match best with
    | none => if s > 0 then some (e, s) else none
    | some bs => if s > bs.2 then some (e, s) else best) none

/-- One iteration of the email-to-contact assignment loop of
DeepCrawler._extract_from_page (lines 692-704): an email-less contact
takes the best-scoring unassigned email when the score reaches the 0.3
threshold, and the email leaves the pool. -/
def assignStepDC (pool : List String) (c : Lead) : List String × Lead :=
  if c.email ≠ "N/A" then (pool, c)
  else
    match bestMatchOver pool c.name with
    | some es =>
      if es.2 ≥ 30 then (pool.erase es.1, { c with email := es.1 })
      else (pool, c)
    | none => (pool, c)

/-- The full email-to-contact assignment loop of
DeepCrawler._extract_from_page (lines 690-704). -/
def assign_emails_to_contacts (emails : List String) (contacts : List Lead) :
    List String × List Lead :=
  mapAccumLeads assignStepDC emails contacts

/-!  ### Email Validator — src/enrichment/email_validator.py -/

def DISPOSABLE_DOMAINS : List String :=
  ["tempmail.com", "throwaway.email", "guerrillamail.com", "mailinator.com",
   "yopmail.com", "trashmail.com", "fakeinbox.com", "sharklasers.com",
   "grr.la", "dispostable.com", "10minutemail.com"]

def ROLE_PREFIXES : List String :=
  ["info", "contact", "hello", "admin", "support", "team", "office",
   "press", "media", "sales", "marketing", "noreply", "no-reply"]

def isLocalChar (c : Char) : Bool :=
  c.isAlpha ∨ c.isDigit ∨ c = '.' ∨ c = '_' ∨ c = '%' ∨ c = '+' ∨ c = '-'

def isDomChar (c : Char) : Bool :=
  c.isAlpha ∨ c.isDigit ∨ c = '.' ∨ c = '-'

def isAsciiAlpha (c : Char) : Bool :=
  ('a' ≤ c ∧ c ≤ 'z') ∨ ('A' ≤ c ∧ c ≤ 'Z')

/-- The anchored validator regex
[a-zA-Z0-9._%+-]+@[a-zA-Z0-9.-]+[.][a-zA-Z]{2,} — the local part runs to
the first "@" (the class admits no "@"), and the trailing
alphabetic group can only follow the last dot of the domain part. -/
def validFormatB (email : String) : Bool :=
  let cs := email.data
  match cs.findIdx? (fun c => c = '@') with
  | none => false
  | some i =>
    let lcl := cs.take i
    let dom := cs.drop (i + 1)
    lcl ≠ [] ∧ lcl.all isLocalChar ∧ dom.all isDomChar ∧
      (let tld := dom.reverse.takeWhile isAsciiAlpha
       let beforeTld := dom.reverse.drop tld.length
       tld.length ≥ 2 ∧ beforeTld.headD ' ' = '.' ∧ beforeTld.length ≥ 2)

/-- email.rsplit("@", 1): the pieces around the last "@". -/
def rsplitAtSign (s : String) : String × String :=
  match s.data.reverse.findIdx? (fun c => c = '@') with
  | none => (s, "")
  | some j =>
    let i := s.data.length - 1 - j
    (String.mk (s.data.take i), String.mk (s.data.drop (i + 1)))

structure ValidationResult where
  valid_format : Bool
  is_disposable : Bool
  is_role_based : Bool
  quality : String
  deriving Repr, DecidableEq

/-- EmailValidator.validate: format, disposable-domain and role-prefix
checks on the stripped, lowered email. -/
def validate (email : String) : ValidationResult :=
  if email = "" ∨ email = "N/A" then
    { valid_format := false, is_disposable := false, is_role_based := false,
      quality := "invalid" }
  else
    let e := pyLower (pyTrim email)
    if ¬ validFormatB e then
      { valid_format := false, is_disposable := false, is_role_based := false,
        quality := "invalid" }
    else
      let pr := rsplitAtSign e
      if DISPOSABLE_DOMAINS.contains pr.2 then
        { valid_format := true, is_disposable := true, is_role_based := false,
          quality := "low" }
      else if ROLE_PREFIXES.contains pr.1 then
        { valid_format := true, is_disposable := false, is_role_based := true,
          quality := "medium" }
      else
        { valid_format := true, is_disposable := false, is_role_based := false,
          quality := "high" }

/-- DNS resolution supplied as a pure oracle: the MX answer list, or an
error for every way dns.resolver.resolve can raise (resolver missing,
NXDOMAIN, timeout, servfail). -/
structure DnsOracle where
  resolveMx : String → Except Unit (List String)

/-- The validator's domain → has_mx dict. -/
abbrev MxCache := List (String × Bool)

/-- EmailValidator.verify_mx: cached per-domain MX existence; any
resolver exception is treated as "assume valid" (has_mx := true). -/
def verify_mx (o : DnsOracle) (cache : MxCache) (email : String) :
    Bool × MxCache :=
  if email = "" ∨ ¬ substrB "@" email then (false, cache)
  else
    let domain := pyLower (rsplitAtSign email).2
    match lookupAssoc cache domain with
    | some b => (b, cache)
    | none =>
      let has_mx :=
        match o.resolveMx domain with
        | Except.ok answers => answers.length > 0
        | Except.error _ => true
      (has_mx, cache ++ [(domain, has_mx)])

/-- The network-facing behavior of SMTP verification, supplied as a
pure oracle: the self-test verdict, the per-domain best MX host (none
when resolution fails entirely), the RCPT TO reply code the _smtp_check
conversation returns for an address (0 for protocol errors, -1 for
timeouts), and whether the domain's MX answers 250 to the catch-all
probe for a random 14-character lowercase local part. -/
structure SmtpOracle where
  selfTest : Bool
  mxHost : String → Option String
  rcptCode : String → Int
  randomAccept : String → Bool

structure SmtpResult where
  deliverable : Option Bool
  smtp_code : Int
  catch_all : Bool
  deriving Repr, DecidableEq

structure SmtpState where
  mx_host_cache : List (String × Option String) := []
  smtp_cache : List (String × SmtpResult) := []
  catch_all_cache : List (String × Bool) := []
  deriving Repr

/-- _resolve_mx_host with its domain cache. -/
def resolve_mx_host (o : SmtpOracle) (st : SmtpState) (domain : String) :
    Option String × SmtpState :=
  match lookupAssoc st.mx_host_cache domain with
  | some h => (h, st)
  | none =>
    let h := o.mxHost domain
    (h, { st with mx_host_cache := st.mx_host_cache ++ [(domain, h)] })

/-- EmailValidator.verify_smtp (no SMTP proxy configured): cache lookup,
self-test gate, MX resolution, the RCPT conversation, and the lazy
per-domain catch-all probe on a 250 answer. -/
def verify_smtp (o : SmtpOracle) (st : SmtpState) (email : String) :
    SmtpResult × SmtpState :=
  let base : SmtpResult := { deliverable := none, smtp_code := 0, catch_all := false }
  if email = "" ∨ ¬ substrB "@" email then
    ({ base with deliverable := some false }, st)
  else
    let domain := pyLower (rsplitAtSign email).2
    match lookupAssoc st.smtp_cache email with
    | some r => (r, st)
    | none =>
      if o.selfTest = false then
        (base, { st with smtp_cache := st.smtp_cache ++ [(email, base)] })
      else
        let pr := resolve_mx_host o st domain
        match pr.1 with
        | none =>
          (base, { pr.2 with smtp_cache := pr.2.smtp_cache ++ [(email, base)] })
        | some _ =>
          let st := pr.2
          let code := o.rcptCode email
          if code = 250 then
            let cp : Bool × SmtpState :=
              match lookupAssoc st.catch_all_cache domain with
              | some b => (b, st)
              | none =>
                let b := o.randomAccept domain
                (b, { st with
                        catch_all_cache := st.catch_all_cache ++ [(domain, b)] })
            let r : SmtpResult :=
              { deliverable := some true, smtp_code := 250, catch_all := cp.1 }
            (r, { cp.2 with smtp_cache := cp.2.smtp_cache ++ [(email, r)] })
          else if code = 550 ∨ code = 551 ∨ code = 552 ∨ code = 553 then
            let r : SmtpResult :=
              { deliverable := some false, smtp_code := code, catch_all := false }
            (r, { st with smtp_cache := st.smtp_cache ++ [(email, r)] })
          else
            let r : SmtpResult :=
              { deliverable := none, smtp_code := code, catch_all := false }
            (r, { st with smtp_cache := st.smtp_cache ++ [(email, r)] })

/-- EmailValidator.verify_smtp_batch: short-circuit to all-indeterminate
when the self-test fails, else check every email (list order models the
semaphore-bounded gather). -/
def verify_smtp_batch (o : SmtpOracle) (emails : List String) :
    List (String × SmtpResult) × SmtpState :=
  if ¬ o.selfTest then
    (emails.map (fun e =>
      (e, { deliverable := none, smtp_code := 0, catch_all := false })), {})
  else
    let pr := mapAccumLeads (fun st e =>
      let r := verify_smtp o st e
      (r.2, (e, r.1))) ({} : SmtpState) emails
    (pr.2, pr.1)

/-!  ### Greyhat enrichment modules

Each of src/enrichment/{dns_harvester, google_dorker, github_miner,
sec_edgar, wayback_enricher, catchall_detector}.py groups the still
email-less leads by domain and runs the identical best-match loop
(imported _match_email_to_name, strict-improvement argmax, 0.3
threshold, pool removal) with its own provenance tag; the network
searches are supplied as pure per-domain oracles.  Groups are disjoint
(one domain per lead), so processing one domain at a time over the full
lead list reproduces the in-place dict-of-groups mutation. -/

/-- The domain key the greyhat modules group by:
urlparse(...).netloc.lower().replace("www.", "") — note the unanchored
replace, unlike the guesser's prefix strip. -/
def module_domain (website : String) : Option String :=
  if website = "" ∨ website = "N/A" then none
  else
    let url := if substrB "://" website then website else "https://" ++ website
    let d := pyReplace (pyLower (netlocOf url)) "www." ""
    if d = "" then none else some d

/-- Group membership for one module pass: an email-less lead whose
website maps to the domain. -/
def inGroup (d : String) (l : Lead) : Bool :=
  ¬ hasEmailPy l.email ∧ module_domain l.website = some d

/-- The domain_leads dict keys in insertion order: first occurrence per
domain among email-less leads with a usable website. -/
def moduleDomains (leads : List Lead) : List String :=
  leads.foldl (fun acc l =>
    if hasEmailPy l.email then acc
    else
      match module_domain l.website with
      | some d => if acc.contains d then acc else acc ++ [d]
      | none => acc) []

/-- The first-pass assignment loop shared verbatim by the greyhat
modules: best-scoring unmatched email at or above the 0.3 threshold,
tagged with the module's provenance string and removed from the pool. -/
def bestAssignModule (tag d : String) (pool : List String)
    (leads : List Lead) : List String × List Lead :=
  mapAccumLeads (fun pool l =>
    if inGroup d l then
      match bestMatchOver pool l.name with
      | some es =>
        if es.2 ≥ 30 then
          (pool.erase es.1, { l with email := es.1, email_status := tag })
        else (pool, l)
      | none => (pool, l)
    else (pool, l)) pool leads

/-- DNSHarvester second pass: distribute leftover DNS emails, but only
those ending exactly in @domain. -/
def dnsFallbackPass (d : String) (pool : List String) (leads : List Lead) :
    List String × List Lead :=
  mapAccumLeads (fun pool l =>
    if inGroup d l then
      match pool.find? (fun e => pyEndsWith e ("@" ++ d)) with
      | some e =>
        (pool.erase e, { l with email := e, email_status := "dns_harvest" })
      | none => (pool, l)
    else (pool, l)) pool leads

/-- DNSHarvester.enrich_batch. -/
def dns_enrich (search : String → List String) (leads : List Lead) :
    List Lead :=
  if leads.all (fun l => hasEmailPy l.email) then leads
  else
    (moduleDomains leads).foldl (fun ls d =>
      let pool := search d
      if pool = [] then ls
      else
        let p1 := bestAssignModule "dns_harvest" d pool ls
        (dnsFallbackPass d p1.1 p1.2).2) leads

/-- GoogleDorker second pass: per-person search for the first three
still-missing leads of the group. -/
def dorkPersonPass (person : String → String → Option String) (d : String)
    (leads : List Lead) : Nat × List Lead :=
  mapAccumLeads (fun cnt l =>
    if inGroup d l ∧ cnt < 3 then
      match person l.name d with
      | some e => (cnt + 1, { l with email := e, email_status := "dorked" })
      | none => (cnt + 1, l)
    else (cnt, l)) 0 leads

/-- GoogleDorker.enrich_batch. -/
def dork_enrich (search : String → List String)
    (person : String → String → Option String) (leads : List Lead) :
    List Lead :=
  if leads.all (fun l => hasEmailPy l.email) then leads
  else
    (moduleDomains leads).foldl (fun ls d =>
      let pool := search d
      let ls1 := if pool = [] then ls else (bestAssignModule "dorked" d pool ls).2
      (dorkPersonPass person d ls1).2) leads

/-- GravatarOracle.enrich_batch: per email-less lead, probe the eight
candidate permutations and take the first avatar hit.  Gravatar's
_generate_candidates is identical to the guesser's generate_candidates. -/
def gravatar_enrich (probe : String → Bool) (leads : List Lead) :
    List Lead :=
  if leads.all (fun l => hasEmailPy l.email) then leads
  else
    leads.map (fun l =>
      if hasEmailPy l.email then l
      else
        match module_domain l.website with
        | some d =>
          match (generate_candidates l.name d).find? probe with
          | some e => { l with email := e, email_status := "gravatar_confirmed" }
          | none => l
        | none => l)

/-- PGPKeyserverScraper.enrich_batch: keyserver search by name, prefer
an email at the fund's domain, else the first one found. -/
def pgp_enrich (searchName : String → Option String → List String)
    (leads : List Lead) : List Lead :=
  if leads.all (fun l => hasEmailPy l.email) then leads
  else
    leads.map (fun l =>
      if hasEmailPy l.email then l
      else
        let td := module_domain l.website
        match searchName l.name td with
        | [] => l
        | e0 :: rest =>
          let best :=
            match td with
            | some d =>
              match (e0 :: rest).find? (fun e => pyEndsWith e ("@" ++ d)) with
              | some e => e
              | none => e0
            | none => e0
          { l with email := best, email_status := "pgp_keyserver" })

/-- GitHubMiner second pass: per-person commit search for the first
five still-missing leads of the group, taking the first found email. -/
def githubPersonPass (person : String → String → List String) (d : String)
    (leads : List Lead) : Nat × List Lead :=
  mapAccumLeads (fun cnt l =>
    if inGroup d l ∧ cnt < 5 then
      match person l.name d with
      | e :: _ => (cnt + 1, { l with email := e, email_status := "github" })
      | [] => (cnt + 1, l)
    else (cnt, l)) 0 leads

/-- GitHubMiner.enrich_batch. -/
def github_enrich (search : String → List String)
    (person : String → String → List String) (leads : List Lead) :
    List Lead :=
  if leads.all (fun l => hasEmailPy l.email) then leads
  else
    (moduleDomains leads).foldl (fun ls d =>
      let pool := search d
      let ls1 := if pool = [] then ls else (bestAssignModule "github" d pool ls).2
      (githubPersonPass person d ls1).2) leads

/-- SECEdgarScraper.enrich_batch: domain-wide filing search plus the
shared best-match pass. -/
def edgar_enrich (search : String → List String) (leads : List Lead) :
    List Lead :=
  if leads.all (fun l => hasEmailPy l.email) then leads
  else
    (moduleDomains leads).foldl (fun ls d =>
      let pool := search d
      if pool = [] then ls
      else (bestAssignModule "sec_edgar" d pool ls).2) leads

/-- WaybackEnricher.enrich_batch: snapshot mining plus the shared
best-match pass. -/
def wayback_enrich (search : String → List String) (leads : List Lead) :
    List Lead :=
  if leads.all (fun l => hasEmailPy l.email) then leads
  else
    (moduleDomains leads).foldl (fun ls d =>
      let pool := search d
      if pool = [] then ls
      else (bestAssignModule "wayback" d pool ls).2) leads

/-!  ### Catch-All Detector — src/enrichment/catchall_detector.py -/

/-- The detector's network behavior: the per-domain catch-all verdict
(_check_catch_all's net result, false on every error path) and the
email set the JS-rendered scrape of the domain's candidate pages
produces. -/
structure CatchAllOracle where
  isCatchAll : String → Bool
  jsEmails : String → List String

/-- The catch-all generation loop (lines 195-207): for every email-less
lead of a catch-all domain, build first.last@domain (or first@domain
for single-word names) directly from the raw name — the learned
pattern cache is never consulted. -/
def catchAllGenerate (d : String) (leads : List Lead) : List Lead :=
  leads.map (fun l =>
    if inGroup d l then
      let parts := pySplit l.name
      let firstw := pyLower (parts.headD "")
      let lastw := if parts.length > 1 then pyLower (parts.getLastD "") else ""
      let email :=
        if lastw = "" then firstw ++ "@" ++ d
        else firstw ++ "." ++ lastw ++ "@" ++ d
      { l with email := email, email_status := "catch_all_generated" }
    else l)

/-- The JS fallback distribution pass (lines 268-277): hand each
remaining email-less lead the head of the unmatched pool. -/
def jsFallbackPass (d : String) (pool : List String) (leads : List Lead) :
    List String × List Lead :=
  mapAccumLeads (fun pool l =>
    if inGroup d l then
      match pool with
      | [] => (pool, l)
      | e :: _ => (pool.erase e, { l with email := e, email_status := "js_scrape" })
    else (pool, l)) pool leads

/-- CatchAllDetector.enrich_batch: catch-all domains get generated
emails; the rest get JS-scraped emails via the shared best-match pass
and then the fallback distribution. -/
def catchall_enrich (o : CatchAllOracle) (leads : List Lead) : List Lead :=
  if leads.all (fun l => hasEmailPy l.email) then leads
  else
    (moduleDomains leads).foldl (fun ls d =>
      if o.isCatchAll d then catchAllGenerate d ls
      else
        let pool := o.jsEmails d
        if pool = [] then ls
        else
          let p1 := bestAssignModule "js_scrape" d pool ls
          (jsFallbackPass d p1.1 p1.2).2) leads

/-!  ### Engine pipeline — CrawlEngine._enrich_and_output in
src/engine.py (default flags: greyhat and SMTP verification enabled) -/

/-- The fund-level row filter (engine lines 446-449). -/
def filterFundRows (leads : List Lead) : List Lead :=
  leads.filter (fun l => pyTrim (pyLower l.name) ≠ pyTrim (pyLower l.fund))

/-- Engine lines 456-465: validate every email (EmailValidator
.validate_batch zipped back), blanking invalid, MX-less and disposable
addresses to the sentinel. -/
def validateStage (o : DnsOracle) (leads : List Lead) : List Lead :=
  (mapAccumLeads (fun cache l =>
    let r := validate l.email
    if r.quality = "invalid" then (cache, { l with email := "N/A" })
    else
      let pr := if r.valid_format then verify_mx o cache l.email else (false, cache)
      if ¬ pr.1 then (pr.2, { l with email := "N/A" })
      else if r.is_disposable then (pr.2, { l with email := "N/A" })
      else (pr.2, l)) ([] : MxCache) leads).2

/-- Engine lines 469-472: tag pre-existing emails as scraped. -/
def markScraped (leads : List Lead) : List Lead :=
  leads.map (fun l =>
    if l.email ≠ "" ∧ l.email ≠ "N/A" ∧ substrB "@" l.email then
      { l with email_status := "scraped" }
    else l)

/-- Engine lines 490-492: tag guesser finds. -/
def markGuessed (leads : List Lead) : List Lead :=
  leads.map (fun l =>
    if l.email_status = "unknown" ∧ l.email ≠ "" ∧ l.email ≠ "N/A" ∧
       substrB "@" l.email then
      { l with email_status := "guessed" }
    else l)

/-- Engine lines 688-690: tag any remaining untagged greyhat finds. -/
def markGreyhat (leads : List Lead) : List Lead :=
  leads.map (fun l =>
    if l.email_status = "unknown" ∧ hasEmailPy l.email ∧ substrB "@" l.email then
      { l with email_status := "greyhat" }
    else l)

/-- The per-lead status update of engine lines 521-538, driven by the
SMTP result dict. -/
def smtpUpdate (results : List (String × SmtpResult)) (l : Lead) : Lead :=
  if l.email ≠ "" ∧ l.email ≠ "N/A" ∧ substrB "@" l.email then
    match lookupAssoc results l.email with
    | none => l
    | some r =>
      if r.deliverable = some true then
        if r.catch_all then { l with email_status := "catch_all" }
        else { l with email_status := "verified" }
      else if r.deliverable = some false then
        { l with email_status := "undeliverable" }
      else l
  else l

/-- Engine lines 508-541: SMTP verification of every resolved email and
the status update from the result dict. -/
def smtpStage (o : SmtpOracle) (leads : List Lead) : List Lead :=
  let cands := leads.filter (fun l =>
    l.email ≠ "" ∧ l.email ≠ "N/A" ∧ substrB "@" l.email)
  if cands = [] then leads
  else
    leads.map (smtpUpdate
      (verify_smtp_batch o (cands.map (fun l => l.email))).1)

/-- Every pure-oracle dependency of one _enrich_and_output run. -/
structure PipelineOracle where
  dns : DnsOracle
  guess : GuessOracle
  dnsHarvest : String → List String
  dorkSearch : String → List String
  dorkPerson : String → String → Option String
  gravatarProbe : String → Bool
  pgpSearch : String → Option String → List String
  githubSearch : String → List String
  githubPerson : String → String → List String
  edgarSearch : String → List String
  waybackSearch : String → List String
  catchall : CatchAllOracle
  smtp : SmtpOracle
  scoring : ScoringCfg

/-- CrawlEngine._run_greyhat_enrichment: the eight modules in engine
order, then the greyhat tagging sweep. -/
def run_greyhat (po : PipelineOracle) (leads : List Lead) : List Lead :=
  let leads := dns_enrich po.dnsHarvest leads
  let leads := dork_enrich po.dorkSearch po.dorkPerson leads
  let leads := gravatar_enrich po.gravatarProbe leads
  let leads := pgp_enrich po.pgpSearch leads
  let leads := github_enrich po.githubSearch po.githubPerson leads
  let leads := edgar_enrich po.edgarSearch leads
  let leads := wayback_enrich po.waybackSearch leads
  let leads := catchall_enrich po.catchall leads
  markGreyhat leads

/-- CrawlEngine._enrich_and_output: the full enrichment pipeline from
the fund-row filter to scoring, in engine order. -/
def enrich_and_output (po : PipelineOracle) (leads : List Lead) : List Lead :=
  let leads := filterFundRows leads
  let leads := validateStage po.dns leads
  let leads := markScraped leads
  let leads := (guess_batch po.guess leads).2
  let leads := markGuessed leads
  let leads := run_greyhat po leads
  let leads := smtpStage po.smtp leads
  score_batch po.scoring leads

/-- The email-discovery stages alone (guesser, the seven greyhat
search modules, catch-all): the stages the idempotence claim quantifies
over. -/
def discovery_stages (po : PipelineOracle) (leads : List Lead) : List Lead :=
  let leads := (guess_batch po.guess leads).2
  let leads := dns_enrich po.dnsHarvest leads
  let leads := dork_enrich po.dorkSearch po.dorkPerson leads
  let leads := gravatar_enrich po.gravatarProbe leads
  let leads := pgp_enrich po.pgpSearch leads
  let leads := github_enrich po.githubSearch po.githubPerson leads
  let leads := edgar_enrich po.edgarSearch leads
  let leads := wayback_enrich po.waybackSearch leads
  catchall_enrich po.catchall leads

/-!  ### Deep-crawler batch loop — DeepCrawler.run in src/deep_crawl.py

run() crawls funds in batches under asyncio.wait_for(asyncio.gather(...),
timeout=...).  A completed _crawl_fund coroutine only contributes its
returned contact list when the surrounding gather resolves; when
wait_for raises TimeoutError the gather is cancelled and the except
branch moves on without reading any of the batch's results, so the
whole loop body reduces to: extend all_contacts with every list-valued
outcome of the batch, unless the batch timed out. -/

/-- What one domain's _crawl_fund task has produced by the time the
batch resolves: a contact list, or an exception (gather with
return_exceptions=True hands back the exception object, which the
isinstance(result, list) check skips). -/
inductive DomainOutcome where
  | completed : List Lead → DomainOutcome
  | failed : DomainOutcome
  deriving Repr, DecidableEq

/-- One batch of concurrently crawled domains together with whether the
aggregate wait_for deadline expired before the gather resolved. -/
structure CrawlBatch where
  outcomes : List DomainOutcome
  timedOut : Bool
  deriving Repr, DecidableEq

/-- The contact lists a resolved batch contributes. -/
def batchContacts (b : CrawlBatch) : List Lead :=
  b.outcomes.foldl (fun acc oc =>
    match oc with
    | DomainOutcome.completed ls => acc ++ ls
    | DomainOutcome.failed => acc) []

/-- The accumulation loop of DeepCrawler.run: per batch, either extend
all_contacts with the batch's list results or — on TimeoutError — log
and move on, collecting nothing from that batch. -/
def runBatches (batches : List CrawlBatch) : List Lead :=
  batches.foldl (fun acc b =>
    if b.timedOut then acc else acc ++ batchContacts b) []

/-!  ### Derived vocabulary used by the statements -/

/-- The provenance tags the pipeline can carry before SMTP verification
runs (every email_status string assigned by the crawler, the guesser
marking sweeps and the greyhat modules). -/
def PRE_TAGS : List String :=
  ["unknown", "scraped", "guessed", "greyhat", "dns_harvest", "dorked",
   "gravatar_confirmed", "pgp_keyserver", "github", "sec_edgar", "wayback",
   "catch_all_generated", "js_scrape"]

/-- All provenance tags of the pipeline, the SMTP verdict tags included. -/
def TAGS : List String := PRE_TAGS ++ ["catch_all", "verified", "undeliverable"]

/-- The sentinel states of the email field ("unknown" email). -/
def sentinelEmail (e : String) : Bool :=
  e = "" ∨ e = "N/A" ∨ e = "N/A (invalid)"

/-- Rank of the four default tier labels, for stating monotonicity of
the threshold ladder. -/
def labelRank (lbl : String) : Nat :=
  if lbl = "🔴 HOT" then 3
  else if lbl = "🟡 WARM" then 2
  else if lbl = "🟢 COOL" then 1
  else 0

/-- The cache-free denotation of verify_smtp for a fixed oracle: what
one SMTP check of an email computes when nothing relevant is cached.
The cache-threading verify_smtp always produces exactly this value. -/
def smtpResultOf (o : SmtpOracle) (email : String) : SmtpResult :=
  let base : SmtpResult := { deliverable := none, smtp_code := 0, catch_all := false }
  if email = "" ∨ ¬ substrB "@" email then { base with deliverable := some false }
  else if o.selfTest = false then base
  else
    let domain := pyLower (rsplitAtSign email).2
    match o.mxHost domain with
    | none => base
    | some _ =>
      let code := o.rcptCode email
      if code = 250 then
        { deliverable := some true, smtp_code := 250,
          catch_all := o.randomAccept domain }
      else if code = 550 ∨ code = 551 ∨ code = 552 ∨ code = 553 then
        { deliverable := some false, smtp_code := code, catch_all := false }
      else { deliverable := none, smtp_code := code, catch_all := false }

/-- The emails the assignment loop of _extract_from_page handed out:
positions where the contact's email changed. -/
def newlyAssigned (before after : List Lead) : List String :=
  (before.zip after).filterMap (fun p =>
    if p.1.email ≠ p.2.email then some p.2.email else none)

/-!  ### Concrete scenario inputs for the witnesses and counterexamples -/

/-- A fully-attributed lead used by the scoring counterexample. -/
def c3Lead : Lead :=
  { name := "Jane Smith", email := "jane@acme.vc",
    linkedin := "https://linkedin.com/in/janesmith", stage := "seed",
    focus_areas := ["fintech"], check_size := "$25K - $100K",
    website := "https://acme.vc", scraped_at := "2020-01-01T00:00:00" }

/-- A contact already resolved to john@acme.vc, exhibiting the
first-name-only pattern. -/
def johnResolved : Lead :=
  { name := "John Doe", email := "john@acme.vc", website := "https://acme.vc" }

/-- An email-less sibling contact at the same domain. -/
def janeUnresolved : Lead :=
  { name := "Jane Smith", website := "https://acme.vc" }

/-- A contact whose known email jdoe@acme.vc exhibits the f-last
pattern. -/
def johnFLast : Lead :=
  { name := "John Doe", email := "jdoe@acme.vc", website := "https://acme.vc" }

/-- An email-less contact whose all-caps three-word name fails the
guesser's person check but still receives a generated catch-all email. -/
def janeAllCaps : Lead :=
  { name := "JANE ANN SMITH", website := "https://acme.vc" }

/-- A guesser oracle with no SMTP and no MX anywhere. -/
def offlineGuessOracle : GuessOracle :=
  { smtp_ok := false, deliverable := fun _ => false, has_mx := fun _ => false }

/-- A catch-all oracle under which acme.vc accepts any recipient. -/
def acmeCatchAllOracle : CatchAllOracle :=
  { isCatchAll := fun d => d = "acme.vc", jsEmails := fun _ => [] }

/-- An SMTP oracle under which every RCPT answers 250 and acme.vc also
accepts the random catch-all probe. -/
def acmeSmtpOracle : SmtpOracle :=
  { selfTest := true, mxHost := fun _ => some "mx.acme.vc",
    rcptCode := fun _ => 250, randomAccept := fun d => d = "acme.vc" }

/-- A DNS oracle whose every MX lookup raises. -/
def failingDnsOracle : DnsOracle := { resolveMx := fun _ => Except.error () }

/-- A pipeline oracle combining the concrete oracles above, with every
greyhat search coming back empty. -/
def acmePipelineOracle : PipelineOracle :=
  { dns := failingDnsOracle,
    guess := offlineGuessOracle,
    dnsHarvest := fun _ => [], dorkSearch := fun _ => [],
    dorkPerson := fun _ _ => none, gravatarProbe := fun _ => false,
    pgpSearch := fun _ _ => [], githubSearch := fun _ => [],
    githubPerson := fun _ _ => [], edgarSearch := fun _ => [],
    waybackSearch := fun _ => [],
    catchall := { isCatchAll := fun _ => false, jsEmails := fun _ => [] },
    smtp := acmeSmtpOracle,
    scoring := {} }

/-- A one-batch crawl in which the only domain completed before the
aggregate deadline expired. -/
def timedOutBatch : CrawlBatch :=
  { outcomes := [DomainOutcome.completed [janeUnresolved]], timedOut := true }

/-- Consistency of a validator SMTP state with its oracle: every cached
entry equals what the oracle yields, and every cached 250-result has
the matching per-domain catch-all verdict recorded. -/
def SmtpInv (o : SmtpOracle) (st : SmtpState) : Prop :=
  (∀ (e : String) (r : SmtpResult),
     lookupAssoc st.smtp_cache e = some r → r = smtpResultOf o e) ∧
  (∀ (d : String) (b : Bool),
     lookupAssoc st.catch_all_cache d = some b → b = o.randomAccept d) ∧
  (∀ (d : String) (h : Option String),
     lookupAssoc st.mx_host_cache d = some h → h = o.mxHost d) ∧
  (∀ (e : String) (r : SmtpResult),
     lookupAssoc st.smtp_cache e = some r → r.deliverable = some true →
       lookupAssoc st.catch_all_cache (pyLower (rsplitAtSign e).2) =
         some r.catch_all)

/-!  ## Theorems -/

/-- Helper: lookup on a cons cell. -/
theorem lookupAssoc_cons {α : Type} (kv : String × α) (rest : List (String × α))
    (k : String) :
    lookupAssoc (kv :: rest) k =
      if kv.1 = k then some kv.2 else lookupAssoc rest k := by
  by_cases hk : kv.1 = k <;> simp [lookupAssoc, List.find?_cons, hk]

/-- Helper: association lookup ignores a later append while the key is
already bound. -/
theorem lookupAssoc_append_left {α : Type} {l : List (String × α)} {k : String}
    {v : α} (h : lookupAssoc l k = some v) (l2 : List (String × α)) :
    lookupAssoc (l ++ l2) k = some v := by
  induction l with
  | nil => simp [lookupAssoc] at h
  | cons kv rest ih =>
    rw [List.cons_append, lookupAssoc_cons]
    rw [lookupAssoc_cons] at h
    by_cases hk : kv.1 = k
    · simpa [hk] using h
    · rw [if_neg hk] at h ⊢; exact ih h

/-- Helper: association lookup of a freshly appended binding for a key
that was unbound. -/
theorem lookupAssoc_append_new {α : Type} {l : List (String × α)} {k : String}
    (h : lookupAssoc l k = none) (v : α) :
    lookupAssoc (l ++ [(k, v)]) k = some v := by
  induction l with
  | nil => simp [lookupAssoc, List.find?_cons]
  | cons kv rest ih =>
    rw [List.cons_append, lookupAssoc_cons]
    rw [lookupAssoc_cons] at h
    by_cases hk : kv.1 = k
    · rw [if_pos hk] at h; exact absurd h (by simp)
    · rw [if_neg hk] at h ⊢; exact ih h

/-- C4: for every lead the returned score is clamped into [0, 100]; on
the configured default threshold ladder (hot ≥ 80, warm ≥ 60,
cool ≥ 40, else cold) the score-to-tier mapping is monotonically
non-decreasing in the score, a score of 85 is classified HOT and a
score of 65 WARM. -/
theorem c4_bounds_and_tier_monotone :
    (∀ (cfg : ScoringCfg) (lead : Lead),
       0 ≤ (score cfg lead).1 ∧ (score cfg lead).1 ≤ 100) ∧
    (∀ s1 s2 : Int, s1 ≤ s2 →
       labelRank (get_tier defaultScoringCfg s1) ≤
         labelRank (get_tier defaultScoringCfg s2)) ∧
    get_tier defaultScoringCfg 85 = "🔴 HOT" ∧
    get_tier defaultScoringCfg 65 = "🟡 WARM" := by
  refine ⟨fun cfg lead => ⟨le_max_left 0 _, max_le (by norm_num) (min_le_left 100 _)⟩,
          fun s1 s2 h => ?_, by decide, by decide⟩
  show labelRank (if s1 ≥ 80 then "🔴 HOT" else if s1 ≥ 60 then "🟡 WARM"
        else if s1 ≥ 40 then "🟢 COOL" else "⚪ COLD") ≤
       labelRank (if s2 ≥ 80 then "🔴 HOT" else if s2 ≥ 60 then "🟡 WARM"
        else if s2 ≥ 40 then "🟢 COOL" else "⚪ COLD")
  split_ifs <;> simp [labelRank] <;> omega

/-- C3 counterexample: the configured portfolio-relevance and recency
weights have no effect on the score, and two leads that differ only in
their contact-recency timestamp score identically, so the score is not
a weighted sum over five dimensions including contact-recency decay and
portfolio relevance, and carries no staleness modifier. -/
theorem c3_counterexample :
    score { defaultScoringCfg with
            weights := { portfolio_relevance := 0, recency := 0 } } c3Lead
      = score defaultScoringCfg c3Lead ∧
    score defaultScoringCfg { c3Lead with scraped_at := "2026-10-12T00:00:00" }
      = score defaultScoringCfg c3Lead ∧
    (score defaultScoringCfg c3Lead).1 = 73 := by
  refine ⟨rfl, rfl, by decide⟩

/-- C3 amended: the score is the clamped sum of exactly three weighted
dimensions — funding-stage fit, sector overlap and check-size fit —
plus the flat has-email / has-linkedin / no-email modifiers; it is
independent of the portfolio_relevance and recency weights and of the
contact's discovery timestamp (presence of any email is rewarded — not
specifically a verified one — and there is no staleness modifier). -/
theorem c3_amended_three_dimensions :
    (∀ (cfg : ScoringCfg) (lead : Lead),
       (score cfg lead).1 = max 0 (min 100
         (score_stage cfg lead.stage +
          score_sectors cfg lead.focus_areas +
          score_check_size cfg lead.check_size +
          (if lead.email ≠ "" ∧ lead.email ≠ "N/A" then cfg.modifiers.has_email
           else cfg.modifiers.no_email) +
          (if lead.linkedin ≠ "" ∧ lead.linkedin ≠ "N/A" then
             cfg.modifiers.has_linkedin else 0)))) ∧
    (∀ (w : Weights) (p r : Int) (lead : Lead),
       score { defaultScoringCfg with
               weights := { w with portfolio_relevance := p, recency := r } } lead
         = score { defaultScoringCfg with weights := w } lead) ∧
    (∀ (lead : Lead) (t : String),
       score defaultScoringCfg { lead with scraped_at := t }
         = score defaultScoringCfg lead) :=
  ⟨fun _ _ => rfl, fun _ _ _ _ => rfl, fun _ _ => rfl⟩

/-- C9 counterexample: a batch whose aggregate wait_for deadline
expired contributes nothing to the collected contact set, even though
one of its domains had completed with a contact. -/
theorem c9_counterexample :
    runBatches [timedOutBatch] = [] ∧
    batchContacts timedOutBatch = [janeUnresolved] := by
  decide

/-- C9 amended: the run collects exactly the list-valued results of the
batches that did not time out; a batch timeout discards the whole
batch — the results of domains that had already completed within it
included — and only other batches' results are retained. -/
theorem c9_amended_batch_timeout_discards (batches : List CrawlBatch) :
    runBatches batches =
      ((batches.filter (fun b => b.timedOut = false)).map batchContacts).flatten := by
  have key : ∀ (bs : List CrawlBatch) (acc : List Lead),
      bs.foldl (fun acc b => if b.timedOut then acc else acc ++ batchContacts b) acc
        = acc ++ ((bs.filter (fun b => b.timedOut = false)).map batchContacts).flatten := by
    intro bs
    induction bs with
    | nil => intro acc; simp
    | cons b rest ih =>
      intro acc
      by_cases hb : b.timedOut <;>
        simp [hb, ih, List.append_assoc]
  simpa using key batches []

/-- C10: when the MX lookup of an email's domain raises (resolver
unavailable, timeout, NXDOMAIN), verify_mx answers true — the domain is
never rejected for lacking MX records on DNS failure — and that boolean
is cached for the domain, so every later check of the domain in the
same run returns it without consulting DNS again. -/
theorem c10_mx_failure_bias (o : DnsOracle) (cache : MxCache) (email : String)
    (hne : email ≠ "") (hat : substrB "@" email = true)
    (hmiss : lookupAssoc cache (pyLower (rsplitAtSign email).2) = none)
    (herr : o.resolveMx (pyLower (rsplitAtSign email).2) = Except.error ()) :
    verify_mx o cache email =
      (true, cache ++ [(pyLower (rsplitAtSign email).2, true)]) ∧
    (∀ o2 : DnsOracle,
       verify_mx o2 (cache ++ [(pyLower (rsplitAtSign email).2, true)]) email =
         (true, cache ++ [(pyLower (rsplitAtSign email).2, true)])) := by
  constructor
  · unfold verify_mx
    simp [hne, hat, hmiss, herr]
  · intro o2
    unfold verify_mx
    simp [hne, hat, lookupAssoc_append_new hmiss true]

/-- C4 witness. -/
theorem c4_bounds_and_tier_monotone_witness :
    (0 ≤ (score defaultScoringCfg c3Lead).1 ∧
       (score defaultScoringCfg c3Lead).1 ≤ 100) ∧
    labelRank (get_tier defaultScoringCfg 65) ≤
      labelRank (get_tier defaultScoringCfg 85) :=
  ⟨c4_bounds_and_tier_monotone.1 defaultScoringCfg c3Lead,
   c4_bounds_and_tier_monotone.2.1 65 85 (by decide)⟩

/-- C5: in a batch holding a contact already resolved to john@acme.vc
(whose first-name-only pattern the guesser learns) and an email-less
"Jane Smith" at the same domain, the guesser stage resolves the latter
to jane@acme.vc — for every network oracle, since the learned pattern
is applied without any network call. -/
theorem c5_pattern_propagation (o : GuessOracle) :
    (guess_batch o [johnResolved, janeUnresolved]).2 =
      [johnResolved, { janeUnresolved with email := "jane@acme.vc" }] ∧
    cacheGet (guess_batch o [johnResolved, janeUnresolved]).1.patterns "acme.vc" =
      some EPattern.firstOnly := by
  constructor <;> rfl

/-- Helper: a cacheApply hit instantiates exactly the cached pattern of
the domain with the contact's normalized first and last name. -/
theorem cacheApply_conforms {c : PatternCache} {nm dm x : String} {p : EPattern}
    (hp : cacheGet c dm = some p) (hx : cacheApply c nm dm = some x) :
    x = applyPattern p
          (normalize_name ((nameParts nm).headD ""))
          (normalize_name ((nameParts nm).getLastD ""))
          (pyTake (normalize_name ((nameParts nm).headD "")) 1) dm := by
  unfold cacheApply at hx
  rw [hp] at hx
  dsimp only at hx
  by_cases h2 : (nameParts nm).length < 2
  · rw [if_pos h2] at hx; exact absurd hx (by simp)
  · rw [if_neg h2] at hx
    by_cases h3 : normalize_name ((nameParts nm).headD "") = "" ∨
        normalize_name ((nameParts nm).getLastD "") = ""
    · rw [if_pos h3] at hx; exact absurd hx (by simp)
    · rw [if_neg h3] at hx
      exact (Option.some.injEq _ _ ▸ hx).symm

/-- C6 amended: every email the guesser itself generates for a domain
whose pattern P is cached conforms to P (_generate_best_email never
falls back to the default pattern when a learned pattern applies); the
claim fails for the pipeline as a whole because the catch-all detector
builds first.last@domain without consulting the pattern cache. -/
theorem c6_amended_guesser_conforms (c : PatternCache) (name domain : String)
    (p : EPattern) (e : String)
    (hp : cacheGet c domain = some p)
    (he : generate_best_email c name domain = some e) :
    e = applyPattern p
          (normalize_name ((nameParts (clean_person_name name)).headD ""))
          (normalize_name ((nameParts (clean_person_name name)).getLastD ""))
          (pyTake (normalize_name ((nameParts (clean_person_name name)).headD "")) 1)
          domain := by
  rcases hca : cacheApply c (clean_person_name name) domain with _ | x
  · exfalso
    unfold generate_best_email at he
    dsimp only at he
    rw [hca] at he
    dsimp only at he
    unfold cacheApply at hca
    rw [hp] at hca
    dsimp only at hca
    by_cases h2 : (nameParts (clean_person_name name)).length < 2
    · rw [if_pos h2] at he
      exact absurd he (by simp)
    · rw [if_neg h2] at hca
      by_cases h3 : normalize_name ((nameParts (clean_person_name name)).headD "") = "" ∨
          normalize_name ((nameParts (clean_person_name name)).getLastD "") = ""
      · rw [if_neg h2, if_pos h3] at he
        exact absurd he (by simp)
      · rw [if_neg h3] at hca
        exact absurd hca (by simp)
  · have hx : x = e := by
      unfold generate_best_email at he
      dsimp only at he
      rw [hca] at he
      dsimp only at he
      exact Option.some.injEq _ _ ▸ he
    exact hx ▸ cacheApply_conforms hp hca

/-- C6 amended witness. -/
theorem c6_amended_guesser_conforms_witness :
    generate_best_email [("acme.vc", EPattern.fLast)] "Jane Smith" "acme.vc" =
      some "jsmith@acme.vc" ∧
    "jsmith@acme.vc" = applyPattern EPattern.fLast "jane" "smith" "j" "acme.vc" :=
  ⟨by decide,
   by
    have h := c6_amended_guesser_conforms [("acme.vc", EPattern.fLast)]
      "Jane Smith" "acme.vc" EPattern.fLast "jsmith@acme.vc" (by decide) (by decide)
    exact h⟩

/-- C6 counterexample: with the f-last pattern learned for acme.vc
(from jdoe@acme.vc), the catch-all stage generates
jane.smith@acme.vc for a contact at that domain, which does not conform
to the learned pattern (the conforming email would be
jsmith@acme.vc). -/
theorem c6_counterexample :
    (guess_batch offlineGuessOracle [johnFLast, janeAllCaps]).1.patterns =
      [("acme.vc", EPattern.fLast)] ∧
    (catchall_enrich acmeCatchAllOracle
        (guess_batch offlineGuessOracle [johnFLast, janeAllCaps]).2).map
        (fun l => l.email) =
      ["jdoe@acme.vc", "jane.smith@acme.vc"] ∧
    cacheApply [("acme.vc", EPattern.fLast)] "JANE ANN SMITH" "acme.vc" =
      some "jsmith@acme.vc" ∧
    ("jane.smith@acme.vc" = "jsmith@acme.vc") = False ∧
    detect_pattern "jane.smith@acme.vc" "JANE ANN SMITH" ≠ some EPattern.fLast := by
  refine ⟨by decide, by decide, by decide, by simp, by decide⟩

/-- Helper: a state-threading rewrite pass that fixes every element of
its input list (and the state) is the identity. -/
theorem mapAccumLeads_id {σ α : Type} (f : σ → α → σ × α) (l : List α)
    (h : ∀ s : σ, ∀ a ∈ l, f s a = (s, a)) :
    ∀ s : σ, mapAccumLeads f s l = (s, l) := by
  induction l with
  | nil => intro s; rfl
  | cons a rest ih =>
    intro s
    have hrest := ih (fun s b hb => h s b (List.mem_cons_of_mem _ hb))
    simp only [mapAccumLeads, h s a (List.mem_cons_self a rest), hrest]

/-- Helper: mapping a function that fixes every member is the identity. -/
theorem map_id_of_mem {α : Type} {f : α → α} {l : List α}
    (h : ∀ a ∈ l, f a = a) : l.map f = l := by
  induction l with
  | nil => rfl
  | cons a rest ih =>
    simp only [List.map_cons, h a (List.mem_cons_self a rest),
      ih (fun b hb => h b (List.mem_cons_of_mem _ hb))]

/-- Helper: the guesser is the identity on a batch in which every lead
already has a resolved email. -/
theorem guess_batch_resolved (o : GuessOracle) (leads : List Lead)
    (h : ∀ l ∈ leads, hasEmailPy l.email = true) :
    (guess_batch o leads).2 = leads := by
  have happly : ∀ c, guessApplyPhase c leads = leads := by
    intro c
    exact map_id_of_mem (fun l hl => by simp [h l hl])
  have hstep : ∀ (st : GuesserState), ∀ l ∈ guessApplyPhase
      (guessProbePhase o (guessLearnPhase [] leads) leads) leads,
      guessStep o st l = (st, l) := by
    rw [happly]
    intro st l hl
    simp [guessStep, h l hl]
  unfold guess_batch
  rw [mapAccumLeads_id _ _ hstep]
  exact happly _

/-- C2: every enrichment stage selects only the contacts still missing
an email, so re-running the discovery stages on a fully-resolved batch
changes nothing, and re-scoring an already-scored, score-sorted batch
reproduces it exactly: no email, provenance tag, or score changes. -/
theorem c2_idempotence (po : PipelineOracle) (leads : List Lead)
    (h : ∀ l ∈ leads, hasEmailPy l.email = true)
    (hs : ∀ l ∈ leads, assign_score po.scoring l = l)
    (hsorted : List.Pairwise (fun a b => b.lead_score ≤ a.lead_score) leads) :
    discovery_stages po leads = leads ∧
    score_batch po.scoring leads = leads := by
  have hall : leads.all (fun l => hasEmailPy l.email) = true :=
    List.all_eq_true.mpr h
  constructor
  · have e0 := guess_batch_resolved po.guess leads h
    have e1 : dns_enrich po.dnsHarvest leads = leads := by
      unfold dns_enrich; rw [if_pos hall]
    have e2 : dork_enrich po.dorkSearch po.dorkPerson leads = leads := by
      unfold dork_enrich; rw [if_pos hall]
    have e3 : gravatar_enrich po.gravatarProbe leads = leads := by
      unfold gravatar_enrich; rw [if_pos hall]
    have e4 : pgp_enrich po.pgpSearch leads = leads := by
      unfold pgp_enrich; rw [if_pos hall]
    have e5 : github_enrich po.githubSearch po.githubPerson leads = leads := by
      unfold github_enrich; rw [if_pos hall]
    have e6 : edgar_enrich po.edgarSearch leads = leads := by
      unfold edgar_enrich; rw [if_pos hall]
    have e7 : wayback_enrich po.waybackSearch leads = leads := by
      unfold wayback_enrich; rw [if_pos hall]
    have e8 : catchall_enrich po.catchall leads = leads := by
      unfold catchall_enrich; rw [if_pos hall]
    show catchall_enrich po.catchall (wayback_enrich po.waybackSearch
      (edgar_enrich po.edgarSearch (github_enrich po.githubSearch po.githubPerson
        (pgp_enrich po.pgpSearch (gravatar_enrich po.gravatarProbe
          (dork_enrich po.dorkSearch po.dorkPerson (dns_enrich po.dnsHarvest
            (guess_batch po.guess leads).2))))))) = leads
    rw [e0, e1, e2, e3, e4, e5, e6, e7, e8]
  · unfold score_batch
    rw [map_id_of_mem hs]
    exact List.mergeSort_of_sorted
      (hsorted.imp (fun hab => by simpa using hab))

/-- C2 witness. -/
theorem c2_idempotence_witness :
    discovery_stages acmePipelineOracle
        [{ c3Lead with lead_score := 73, tier := "🟡 WARM" }] =
      [{ c3Lead with lead_score := 73, tier := "🟡 WARM" }] ∧
    score_batch acmePipelineOracle.scoring
        [{ c3Lead with lead_score := 73, tier := "🟡 WARM" }] =
      [{ c3Lead with lead_score := 73, tier := "🟡 WARM" }] :=
  c2_idempotence acmePipelineOracle _
    (by decide) (by decide) (by decide)

/-- Helper: full characterization of the strict-improvement argmax fold
behind bestMatchOver, for an arbitrary starting accumulator. -/
theorem bestMatchFold (name : String) :
    ∀ (pool : List String) (acc : Option (String × Nat)),
      (∀ p : String × Nat, acc = some p →
         p.2 = match_email_to_name p.1 name ∧ 0 < p.2) →
      ∀ q : String × Nat,
        pool.foldl (fun best e =>
          let s := match_email_to_name e name
          match best with
          | none => if s > 0 then some (e, s) else none
          | some bs => if s > bs.2 then some (e, s) else best) acc = some q →
        q.2 = match_email_to_name q.1 name ∧ 0 < q.2 ∧
        (q.1 ∈ pool ∨ acc = some q) ∧
        (∀ e2 ∈ pool, match_email_to_name e2 name ≤ q.2) ∧
        (∀ p : String × Nat, acc = some p → p.2 ≤ q.2) := by
  intro pool
  induction pool with
  | nil =>
    intro acc hacc q hq
    simp only [List.foldl_nil] at hq
    refine ⟨(hacc q hq).1, (hacc q hq).2, Or.inr hq, by simp, ?_⟩
    intro p hp
    rw [hq] at hp
    cases hp
    exact Nat.le_refl _
  | cons e0 rest ih =>
    intro acc hacc q hq
    rw [List.foldl_cons] at hq
    rcases hacc0 : acc with _ | bs
    all_goals rw [hacc0] at hq hacc
    all_goals dsimp only at hq
    · by_cases hpos : match_email_to_name e0 name > 0
      · rw [if_pos hpos] at hq
        obtain ⟨h1, h2, h3, h4, h5⟩ := ih (some (e0, match_email_to_name e0 name))
          (by rintro p rfl2; cases rfl2; exact ⟨rfl, hpos⟩) q hq
        refine ⟨h1, h2, ?_, ?_, by rintro p hp; cases hp⟩
        · rcases h3 with h3 | h3
          · exact Or.inl (List.mem_cons_of_mem _ h3)
          · cases h3; exact Or.inl (List.mem_cons_self _ _)
        · intro e2 he2
          rcases List.mem_cons.mp he2 with rfl | he2
          · exact h5 _ rfl
          · exact h4 e2 he2
      · rw [if_neg hpos] at hq
        obtain ⟨h1, h2, h3, h4, h5⟩ := ih none (by rintro p hp; cases hp) q hq
        refine ⟨h1, h2, ?_, ?_, by rintro p hp; cases hp⟩
        · rcases h3 with h3 | h3
          · exact Or.inl (List.mem_cons_of_mem _ h3)
          · cases h3
        · intro e2 he2
          rcases List.mem_cons.mp he2 with rfl | he2
          · omega
          · exact h4 e2 he2
    · by_cases hgt : match_email_to_name e0 name > bs.2
      · rw [if_pos hgt] at hq
        obtain ⟨h1, h2, h3, h4, h5⟩ := ih (some (e0, match_email_to_name e0 name))
          (by rintro p rfl2; cases rfl2; exact ⟨rfl, by omega⟩) q hq
        have he0le : match_email_to_name e0 name ≤ q.2 := h5 _ rfl
        refine ⟨h1, h2, ?_, ?_, ?_⟩
        · rcases h3 with h3 | h3
          · exact Or.inl (List.mem_cons_of_mem _ h3)
          · cases h3; exact Or.inl (List.mem_cons_self _ _)
        · intro e2 he2
          rcases List.mem_cons.mp he2 with rfl | he2
          · exact he0le
          · exact h4 e2 he2
        · rintro p rfl2
          cases rfl2
          omega
      · rw [if_neg hgt] at hq
        obtain ⟨h1, h2, h3, h4, h5⟩ := ih (some bs) (fun p hp => hacc p hp) q hq
        have hbsle : bs.2 ≤ q.2 := h5 _ rfl
        refine ⟨h1, h2, ?_, ?_, ?_⟩
        · rcases h3 with h3 | h3
          · exact Or.inl (List.mem_cons_of_mem _ h3)
          · exact Or.inr h3
        · intro e2 he2
          rcases List.mem_cons.mp he2 with rfl | he2
          · omega
          · exact h4 e2 he2
        · rintro p rfl2
          cases rfl2
          exact hbsle

/-- Helper: argmax semantics of bestMatchOver itself. -/
theorem bestMatchOver_spec {pool : List String} {name e : String} {s : Nat}
    (h : bestMatchOver pool name = some (e, s)) :
    e ∈ pool ∧ s = match_email_to_name e name ∧ 0 < s ∧
      ∀ e2 ∈ pool, match_email_to_name e2 name ≤ s := by
  obtain ⟨h1, h2, h3, h4, _⟩ := bestMatchFold name pool none
    (by rintro p hp; cases hp) (e, s) h
  rcases h3 with h3 | h3
  · exact ⟨h3, h1, h2, h4⟩
  · cases h3

/-- Helper: one unfolding step of the assignment loop. -/
theorem assign_cons (pool : List String) (c : Lead) (rest : List Lead) :
    assign_emails_to_contacts pool (c :: rest) =
      ((assign_emails_to_contacts (assignStepDC pool c).1 rest).1,
       (assignStepDC pool c).2 ::
         (assign_emails_to_contacts (assignStepDC pool c).1 rest).2) := rfl

/-- Helper: newlyAssigned over matching cons cells. -/
theorem newlyAssigned_cons (c c2 : Lead) (r r2 : List Lead) :
    newlyAssigned (c :: r) (c2 :: r2) =
      if c.email ≠ c2.email then c2.email :: newlyAssigned r r2
      else newlyAssigned r r2 := by
  by_cases h : c.email = c2.email <;> simp [newlyAssigned, h]

/-- Helper: the assignment loop conserves the pool — leftover pool plus
the newly assigned emails is a permutation of the starting pool — and
every newly assigned email scored at least the 0.3 threshold against
its contact's name and came from the pool. -/
theorem assignFold_spec :
    ∀ (contacts : List Lead) (pool : List String),
      pool.Nodup → (∀ e ∈ pool, e ≠ "N/A") →
      ((assign_emails_to_contacts pool contacts).1 ++
         newlyAssigned contacts (assign_emails_to_contacts pool contacts).2).Perm
        pool ∧
      ∀ p ∈ contacts.zip (assign_emails_to_contacts pool contacts).2,
        p.1.email ≠ p.2.email →
          p.1.email = "N/A" ∧ 30 ≤ match_email_to_name p.2.email p.1.name ∧
            p.2.email ∈ pool := by
  intro contacts
  induction contacts with
  | nil =>
    intro pool hnd hna
    constructor
    · simp [assign_emails_to_contacts, mapAccumLeads, newlyAssigned]
    · simp
  | cons c rest ih =>
    intro pool hnd hna
    have hunchanged : ∀ (hstep : assignStepDC pool c = (pool, c)),
        ((assign_emails_to_contacts pool (c :: rest)).1 ++
           newlyAssigned (c :: rest)
             (assign_emails_to_contacts pool (c :: rest)).2).Perm pool ∧
        ∀ p ∈ (c :: rest).zip (assign_emails_to_contacts pool (c :: rest)).2,
          p.1.email ≠ p.2.email →
            p.1.email = "N/A" ∧ 30 ≤ match_email_to_name p.2.email p.1.name ∧
              p.2.email ∈ pool := by
      intro hstep
      rw [assign_cons, hstep]
      obtain ⟨hperm, hzip⟩ := ih pool hnd hna
      constructor
      · rw [newlyAssigned_cons, if_neg (fun h => h rfl)]
        exact hperm
      · intro p hp
        rcases List.mem_cons.mp (by simpa [List.zip_cons_cons] using hp)
          with rfl | hp2
        · intro hne; exact absurd rfl hne
        · exact hzip p hp2
    by_cases hce : c.email = "N/A"
    · rcases hbm : bestMatchOver pool c.name with _ | es
      · exact hunchanged (by simp [assignStepDC, hce, hbm])
      · by_cases hth : es.2 ≥ 30
        · have hstep : assignStepDC pool c =
              (pool.erase es.1, { c with email := es.1 }) := by
            simp [assignStepDC, hce, hbm, hth]
          rw [assign_cons, hstep]
          obtain ⟨hmem, hsc, _, _⟩ := bestMatchOver_spec hbm
          have hne2 : es.1 ≠ "N/A" := hna es.1 hmem
          obtain ⟨hperm, hzip⟩ := ih (pool.erase es.1) (hnd.erase es.1)
            (fun e he => hna e (List.mem_of_mem_erase he))
          constructor
          · have hcne : c.email ≠ es.1 := by rw [hce]; exact Ne.symm hne2
            rw [newlyAssigned_cons, if_pos hcne]
            exact List.perm_middle.trans
              ((hperm.cons es.1).trans (List.perm_cons_erase hmem).symm)
          · intro p hp
            rcases List.mem_cons.mp (by simpa [List.zip_cons_cons] using hp)
              with rfl | hp2
            · intro _
              exact ⟨hce, hsc ▸ hth, hmem⟩
            · intro hne
              obtain ⟨h1, h2, h3⟩ := hzip p hp2 hne
              exact ⟨h1, h2, List.mem_of_mem_erase h3⟩
        · exact hunchanged (by simp [assignStepDC, hce, hbm, hth])
    · exact hunchanged (by simp [assignStepDC, hce])

/-- C8: emails extracted from a page but not tied to a name are matched
to contacts by the deterministic local-part scoring function — an
email-less contact receives the best-scoring candidate when its score
reaches the 0.3 threshold (here scaled to 30/100), each assigned email
is removed from the candidate pool, and no email is ever assigned to
two contacts. -/
theorem c8_fuzzy_assignment (emails : List String) (contacts : List Lead)
    (hnd : emails.Nodup) (hna : ∀ e ∈ emails, e ≠ "N/A") :
    (∀ (pool : List String) (nm e : String) (s : Nat),
       bestMatchOver pool nm = some (e, s) →
         e ∈ pool ∧ s = match_email_to_name e nm ∧ 0 < s ∧
           ∀ e2 ∈ pool, match_email_to_name e2 nm ≤ s) ∧
    ((assign_emails_to_contacts emails contacts).1 ++
       newlyAssigned contacts
         (assign_emails_to_contacts emails contacts).2).Perm emails ∧
    (newlyAssigned contacts (assign_emails_to_contacts emails contacts).2).Nodup ∧
    ∀ p ∈ contacts.zip (assign_emails_to_contacts emails contacts).2,
      p.1.email ≠ p.2.email →
        p.1.email = "N/A" ∧ 30 ≤ match_email_to_name p.2.email p.1.name := by
  obtain ⟨hperm, hzip⟩ := assignFold_spec contacts emails hnd hna
  refine ⟨fun pool nm e s h => bestMatchOver_spec h, hperm, ?_,
    fun p hp hne => ⟨(hzip p hp hne).1, (hzip p hp hne).2.1⟩⟩
  exact (hperm.symm.nodup hnd).of_append_right

/-- C8 witness. -/
theorem c8_fuzzy_assignment_witness :
    ((assign_emails_to_contacts ["info@acme.vc", "jane.smith@acme.vc"]
        [janeUnresolved]).1 ++
      newlyAssigned [janeUnresolved]
        (assign_emails_to_contacts ["info@acme.vc", "jane.smith@acme.vc"]
          [janeUnresolved]).2).Perm ["info@acme.vc", "jane.smith@acme.vc"] :=
  (c8_fuzzy_assignment ["info@acme.vc", "jane.smith@acme.vc"] [janeUnresolved]
    (by decide) (by decide)).2.1

/-- C10 witness. -/
theorem c10_mx_failure_bias_witness :
    verify_mx failingDnsOracle [] "probe@failing.example" =
      (true, [("failing.example", true)]) :=
  (c10_mx_failure_bias failingDnsOracle [] "probe@failing.example"
    (by decide) (by decide) (by decide) rfl).1

/-- Helper: a lookup in an association list extended by one binding
either came from the old list or is the new binding. -/
theorem lookupAssoc_append_cases {α : Type} {l : List (String × α)}
    {k k2 : String} {v r : α}
    (h : lookupAssoc (l ++ [(k, v)]) k2 = some r) :
    lookupAssoc l k2 = some r ∨ (k2 = k ∧ r = v) := by
  induction l with
  | nil =>
    rw [List.nil_append, lookupAssoc_cons] at h
    by_cases hk : k = k2
    · rw [if_pos hk] at h
      cases h
      exact Or.inr ⟨hk.symm, rfl⟩
    · rw [if_neg hk] at h
      simp [lookupAssoc] at h
  | cons kv rest ih =>
    rw [List.cons_append, lookupAssoc_cons] at h
    rw [lookupAssoc_cons]
    by_cases hk : kv.1 = k2
    · rw [if_pos hk] at h ⊢
      exact Or.inl h
    · rw [if_neg hk] at h ⊢
      exact ih h

/-- Helper: resolve_mx_host always answers what the oracle answers (the
cache is consistent by SmtpInv), touches only the MX-host cache, and
keeps that cache consistent. -/
theorem resolve_mx_host_spec (o : SmtpOracle) (st : SmtpState) (d : String)
    (hinv3 : ∀ (d2 : String) (h : Option String),
      lookupAssoc st.mx_host_cache d2 = some h → h = o.mxHost d2) :
    (resolve_mx_host o st d).1 = o.mxHost d ∧
    (resolve_mx_host o st d).2.smtp_cache = st.smtp_cache ∧
    (resolve_mx_host o st d).2.catch_all_cache = st.catch_all_cache ∧
    (∀ (d2 : String) (h : Option String),
      lookupAssoc (resolve_mx_host o st d).2.mx_host_cache d2 = some h →
        h = o.mxHost d2) := by
  unfold resolve_mx_host
  rcases hc : lookupAssoc st.mx_host_cache d with _ | hm
  · dsimp only
    refine ⟨rfl, rfl, rfl, ?_⟩
    intro d2 h hl
    rcases lookupAssoc_append_cases hl with hl | ⟨rfl, rfl⟩
    · exact hinv3 d2 h hl
    · rfl
  · dsimp only
    exact ⟨hinv3 d hm hc, rfl, rfl, hinv3⟩

/-- Helper: verify_smtp on a malformed email. -/
theorem vsmtp_bad (o : SmtpOracle) (st : SmtpState) (e : String)
    (h : e = "" ∨ ¬ substrB "@" e = true) :
    verify_smtp o st e =
      ({ deliverable := some false, smtp_code := 0, catch_all := false }, st) := by
  simp only [verify_smtp]
  rw [if_pos h]

/-- Helper: verify_smtp on a cached email. -/
theorem vsmtp_hit (o : SmtpOracle) (st : SmtpState) (e : String) (r : SmtpResult)
    (h : ¬ (e = "" ∨ ¬ substrB "@" e = true))
    (hc : lookupAssoc st.smtp_cache e = some r) :
    verify_smtp o st e = (r, st) := by
  simp only [verify_smtp]
  rw [if_neg h, hc]

/-- Helper: verify_smtp when the SMTP self-test failed. -/
theorem vsmtp_noself (o : SmtpOracle) (st : SmtpState) (e : String)
    (h : ¬ (e = "" ∨ ¬ substrB "@" e = true))
    (hc : lookupAssoc st.smtp_cache e = none)
    (hs : o.selfTest = false) :
    verify_smtp o st e =
      ({ deliverable := none, smtp_code := 0, catch_all := false },
       { st with smtp_cache := st.smtp_cache ++
           [(e, { deliverable := none, smtp_code := 0, catch_all := false })] }) := by
  simp only [verify_smtp]
  rw [if_neg h, hc]
  dsimp only
  rw [if_pos hs]

/-- Helper: verify_smtp when no MX host resolves. -/
theorem vsmtp_nomx (o : SmtpOracle) (st : SmtpState) (e : String)
    (h : ¬ (e = "" ∨ ¬ substrB "@" e = true))
    (hc : lookupAssoc st.smtp_cache e = none)
    (hs : o.selfTest = true)
    (hm : (resolve_mx_host o st (pyLower (rsplitAtSign e).2)).1 = none) :
    verify_smtp o st e =
      ({ deliverable := none, smtp_code := 0, catch_all := false },
       { (resolve_mx_host o st (pyLower (rsplitAtSign e).2)).2 with
           smtp_cache := (resolve_mx_host o st (pyLower (rsplitAtSign e).2)).2.smtp_cache ++
             [(e, { deliverable := none, smtp_code := 0, catch_all := false })] }) := by
  simp only [verify_smtp]
  rw [if_neg h, hc]
  dsimp only
  rw [if_neg (by rw [hs]; exact fun hfalse => absurd hfalse (by decide)), hm]

/-- Helper: verify_smtp on a 250 RCPT answer with a cached catch-all
verdict. -/
theorem vsmtp_250_hit (o : SmtpOracle) (st : SmtpState) (e : String) (b : Bool)
    (h : ¬ (e = "" ∨ ¬ substrB "@" e = true))
    (hc : lookupAssoc st.smtp_cache e = none)
    (hs : o.selfTest = true)
    (hm : (resolve_mx_host o st (pyLower (rsplitAtSign e).2)).1 ≠ none)
    (h250 : o.rcptCode e = 250)
    (hcc : lookupAssoc
        (resolve_mx_host o st (pyLower (rsplitAtSign e).2)).2.catch_all_cache
        (pyLower (rsplitAtSign e).2) = some b) :
    verify_smtp o st e =
      ({ deliverable := some true, smtp_code := 250, catch_all := b },
       { (resolve_mx_host o st (pyLower (rsplitAtSign e).2)).2 with
           smtp_cache := (resolve_mx_host o st (pyLower (rsplitAtSign e).2)).2.smtp_cache ++
             [(e, { deliverable := some true, smtp_code := 250, catch_all := b })] }) := by
  simp only [verify_smtp]
  rw [if_neg h, hc]
  dsimp only
  rw [if_neg (by rw [hs]; exact fun hfalse => absurd hfalse (by decide))]
  rcases hmx : (resolve_mx_host o st (pyLower (rsplitAtSign e).2)).1 with _ | host
  · exact absurd hmx hm
  · dsimp only
    rw [h250, if_pos rfl, hcc]

/-- Helper: verify_smtp on a 250 RCPT answer probing catch-all afresh. -/
theorem vsmtp_250_miss (o : SmtpOracle) (st : SmtpState) (e : String)
    (h : ¬ (e = "" ∨ ¬ substrB "@" e = true))
    (hc : lookupAssoc st.smtp_cache e = none)
    (hs : o.selfTest = true)
    (hm : (resolve_mx_host o st (pyLower (rsplitAtSign e).2)).1 ≠ none)
    (h250 : o.rcptCode e = 250)
    (hcc : lookupAssoc
        (resolve_mx_host o st (pyLower (rsplitAtSign e).2)).2.catch_all_cache
        (pyLower (rsplitAtSign e).2) = none) :
    verify_smtp o st e =
      ({ deliverable := some true, smtp_code := 250,
         catch_all := o.randomAccept (pyLower (rsplitAtSign e).2) },
       { (resolve_mx_host o st (pyLower (rsplitAtSign e).2)).2 with
           catch_all_cache :=
             (resolve_mx_host o st (pyLower (rsplitAtSign e).2)).2.catch_all_cache ++
               [(pyLower (rsplitAtSign e).2,
                 o.randomAccept (pyLower (rsplitAtSign e).2))],
           smtp_cache := (resolve_mx_host o st (pyLower (rsplitAtSign e).2)).2.smtp_cache ++
             [(e, { deliverable := some true, smtp_code := 250,
                    catch_all := o.randomAccept (pyLower (rsplitAtSign e).2) })] }) := by
  simp only [verify_smtp]
  rw [if_neg h, hc]
  dsimp only
  rw [if_neg (by rw [hs]; exact fun hfalse => absurd hfalse (by decide))]
  rcases hmx : (resolve_mx_host o st (pyLower (rsplitAtSign e).2)).1 with _ | host
  · exact absurd hmx hm
  · dsimp only
    rw [h250, if_pos rfl, hcc]

/-- Helper: verify_smtp on a hard 55x rejection. -/
theorem vsmtp_neg (o : SmtpOracle) (st : SmtpState) (e : String)
    (h : ¬ (e = "" ∨ ¬ substrB "@" e = true))
    (hc : lookupAssoc st.smtp_cache e = none)
    (hs : o.selfTest = true)
    (hm : (resolve_mx_host o st (pyLower (rsplitAtSign e).2)).1 ≠ none)
    (h250 : ¬ o.rcptCode e = 250)
    (h55x : o.rcptCode e = 550 ∨ o.rcptCode e = 551 ∨ o.rcptCode e = 552 ∨
      o.rcptCode e = 553) :
    verify_smtp o st e =
      ({ deliverable := some false, smtp_code := o.rcptCode e, catch_all := false },
       { (resolve_mx_host o st (pyLower (rsplitAtSign e).2)).2 with
           smtp_cache := (resolve_mx_host o st (pyLower (rsplitAtSign e).2)).2.smtp_cache ++
             [(e, { deliverable := some false, smtp_code := o.rcptCode e,
                    catch_all := false })] }) := by
  simp only [verify_smtp]
  rw [if_neg h, hc]
  dsimp only
  rw [if_neg (by rw [hs]; exact fun hfalse => absurd hfalse (by decide))]
  rcases hmx : (resolve_mx_host o st (pyLower (rsplitAtSign e).2)).1 with _ | host
  · exact absurd hmx hm
  · dsimp only
    rw [if_neg h250, if_pos h55x]

/-- Helper: verify_smtp on any other RCPT outcome (indeterminate). -/
theorem vsmtp_other (o : SmtpOracle) (st : SmtpState) (e : String)
    (h : ¬ (e = "" ∨ ¬ substrB "@" e = true))
    (hc : lookupAssoc st.smtp_cache e = none)
    (hs : o.selfTest = true)
    (hm : (resolve_mx_host o st (pyLower (rsplitAtSign e).2)).1 ≠ none)
    (h250 : ¬ o.rcptCode e = 250)
    (h55x : ¬ (o.rcptCode e = 550 ∨ o.rcptCode e = 551 ∨ o.rcptCode e = 552 ∨
      o.rcptCode e = 553)) :
    verify_smtp o st e =
      ({ deliverable := none, smtp_code := o.rcptCode e, catch_all := false },
       { (resolve_mx_host o st (pyLower (rsplitAtSign e).2)).2 with
           smtp_cache := (resolve_mx_host o st (pyLower (rsplitAtSign e).2)).2.smtp_cache ++
             [(e, { deliverable := none, smtp_code := o.rcptCode e,
                    catch_all := false })] }) := by
  simp only [verify_smtp]
  rw [if_neg h, hc]
  dsimp only
  rw [if_neg (by rw [hs]; exact fun hfalse => absurd hfalse (by decide))]
  rcases hmx : (resolve_mx_host o st (pyLower (rsplitAtSign e).2)).1 with _ | host
  · exact absurd hmx hm
  · dsimp only
    rw [if_neg h250, if_neg h55x]

/-- Helper: verify_smtp computes exactly the cache-free denotation,
preserves state consistency, never drops a catch-all cache entry, and
caches its own result. -/
theorem verify_smtp_inv (o : SmtpOracle) (st : SmtpState) (e : String)
    (hinv : SmtpInv o st) :
    (verify_smtp o st e).1 = smtpResultOf o e ∧
    SmtpInv o (verify_smtp o st e).2 ∧
    (∀ (d : String) (b : Bool), lookupAssoc st.catch_all_cache d = some b →
       lookupAssoc (verify_smtp o st e).2.catch_all_cache d = some b) ∧
    (¬ (e = "" ∨ ¬ substrB "@" e = true) →
       lookupAssoc (verify_smtp o st e).2.smtp_cache e =
         some (smtpResultOf o e)) := by
  obtain ⟨h1, h2, h3, h4⟩ := hinv
  by_cases hbad : e = "" ∨ ¬ substrB "@" e = true
  · rw [vsmtp_bad o st e hbad]
    have hres : smtpResultOf o e =
        { deliverable := some false, smtp_code := 0, catch_all := false } := by
      simp only [smtpResultOf]; rw [if_pos hbad]
    exact ⟨by rw [hres], ⟨h1, h2, h3, h4⟩, fun d b hb => hb,
      fun hcon => absurd hbad hcon⟩
  · rcases hc : lookupAssoc st.smtp_cache e with _ | r
    · by_cases hs : o.selfTest = false
      · have hres : smtpResultOf o e =
            { deliverable := none, smtp_code := 0, catch_all := false } := by
          simp only [smtpResultOf]; rw [if_neg hbad, if_pos hs]
        rw [vsmtp_noself o st e hbad hc hs]
        refine ⟨by rw [hres], ⟨?_, h2, h3, ?_⟩, fun d b hb => hb, ?_⟩
        · intro e2 r2 hl
          rcases lookupAssoc_append_cases hl with hl | ⟨rfl, rfl⟩
          · exact h1 e2 r2 hl
          · exact hres.symm
        · intro e2 r2 hl hdel
          rcases lookupAssoc_append_cases hl with hl | ⟨rfl, rfl⟩
          · exact h4 e2 r2 hl hdel
          · exact absurd hdel (by simp)
        · intro _
          rw [hres]
          exact lookupAssoc_append_new hc _
      · have hstrue : o.selfTest = true := by
          revert hs
          cases o.selfTest <;> simp
        obtain ⟨hm1, hmxs, hmxc, hmx3⟩ :=
          resolve_mx_host_spec o st (pyLower (rsplitAtSign e).2) h3
        by_cases hmn : (resolve_mx_host o st (pyLower (rsplitAtSign e).2)).1 = none
        · have hres : smtpResultOf o e =
              { deliverable := none, smtp_code := 0, catch_all := false } := by
            simp only [smtpResultOf]
            rw [if_neg hbad, if_neg hs]
            rw [← hm1, hmn]
          rw [vsmtp_nomx o st e hbad hc hstrue hmn]
          refine ⟨by rw [hres], ⟨?_, ?_, hmx3, ?_⟩, ?_, ?_⟩
          · intro e2 r2 hl
            dsimp only at hl
            rw [hmxs] at hl
            rcases lookupAssoc_append_cases hl with hl | ⟨rfl, rfl⟩
            · exact h1 e2 r2 hl
            · exact hres.symm
          · intro d2 b hb
            dsimp only at hb
            rw [hmxc] at hb
            exact h2 d2 b hb
          · intro e2 r2 hl hdel
            dsimp only at hl ⊢
            rw [hmxs] at hl
            rw [hmxc]
            rcases lookupAssoc_append_cases hl with hl | ⟨rfl, rfl⟩
            · exact h4 e2 r2 hl hdel
            · exact absurd hdel (by simp)
          · intro d b hb
            dsimp only
            rw [hmxc]
            exact hb
          · intro _
            dsimp only
            rw [hmxs, hres]
            exact lookupAssoc_append_new hc _
        · rcases hcc : lookupAssoc
              (resolve_mx_host o st (pyLower (rsplitAtSign e).2)).2.catch_all_cache
              (pyLower (rsplitAtSign e).2) with _ | b
          all_goals by_cases h250 : o.rcptCode e = 250
          -- catch-all cache miss, code 250
          · have hres : smtpResultOf o e =
                { deliverable := some true, smtp_code := 250,
                  catch_all := o.randomAccept (pyLower (rsplitAtSign e).2) } := by
              simp only [smtpResultOf]
              rw [if_neg hbad, if_neg hs]
              rcases hmx2 : o.mxHost (pyLower (rsplitAtSign e).2) with _ | host
              · rw [← hm1] at hmx2; exact absurd hmx2 hmn
              · dsimp only
                rw [if_pos h250]
            rw [vsmtp_250_miss o st e hbad hc hstrue hmn h250 hcc]
            refine ⟨by rw [hres], ⟨?_, ?_, hmx3, ?_⟩, ?_, ?_⟩
            · intro e2 r2 hl
              dsimp only at hl
              rw [hmxs] at hl
              rcases lookupAssoc_append_cases hl with hl | ⟨rfl, rfl⟩
              · exact h1 e2 r2 hl
              · exact hres.symm
            · intro d2 b2 hb
              dsimp only at hb
              rcases lookupAssoc_append_cases hb with hb | ⟨rfl, rfl⟩
              · rw [hmxc] at hb
                exact h2 d2 b2 hb
              · rfl
            · intro e2 r2 hl hdel
              dsimp only at hl ⊢
              rw [hmxs] at hl
              rcases lookupAssoc_append_cases hl with hl | ⟨rfl, rfl⟩
              · have hold := h4 e2 r2 hl hdel
                exact lookupAssoc_append_left (by rw [hmxc]; exact hold) _
              · exact lookupAssoc_append_new hcc _
            · intro d b2 hb
              dsimp only
              exact lookupAssoc_append_left (by rw [hmxc]; exact hb) _
            · intro _
              dsimp only
              rw [hmxs, hres]
              exact lookupAssoc_append_new hc _
          -- catch-all cache miss, code not 250
          · by_cases h55x : o.rcptCode e = 550 ∨ o.rcptCode e = 551 ∨
                o.rcptCode e = 552 ∨ o.rcptCode e = 553
            · have hres : smtpResultOf o e =
                  { deliverable := some false, smtp_code := o.rcptCode e,
                    catch_all := false } := by
                simp only [smtpResultOf]
                rw [if_neg hbad, if_neg hs]
                rcases hmx2 : o.mxHost (pyLower (rsplitAtSign e).2) with _ | host
                · rw [← hm1] at hmx2; exact absurd hmx2 hmn
                · dsimp only
                  rw [if_neg h250, if_pos h55x]
              rw [vsmtp_neg o st e hbad hc hstrue hmn h250 h55x]
              refine ⟨by rw [hres], ⟨?_, ?_, hmx3, ?_⟩, ?_, ?_⟩
              · intro e2 r2 hl
                dsimp only at hl
                rw [hmxs] at hl
                rcases lookupAssoc_append_cases hl with hl | ⟨rfl, rfl⟩
                · exact h1 e2 r2 hl
                · exact hres.symm
              · intro d2 b2 hb
                dsimp only at hb
                rw [hmxc] at hb
                exact h2 d2 b2 hb
              · intro e2 r2 hl hdel
                dsimp only at hl ⊢
                rw [hmxs] at hl
                rw [hmxc]
                rcases lookupAssoc_append_cases hl with hl | ⟨rfl, rfl⟩
                · exact h4 e2 r2 hl hdel
                · exact absurd hdel (by simp)
              · intro d b2 hb
                dsimp only
                rw [hmxc]
                exact hb
              · intro _
                dsimp only
                rw [hmxs, hres]
                exact lookupAssoc_append_new hc _
            · have hres : smtpResultOf o e =
                  { deliverable := none, smtp_code := o.rcptCode e,
                    catch_all := false } := by
                simp only [smtpResultOf]
                rw [if_neg hbad, if_neg hs]
                rcases hmx2 : o.mxHost (pyLower (rsplitAtSign e).2) with _ | host
                · rw [← hm1] at hmx2; exact absurd hmx2 hmn
                · dsimp only
                  rw [if_neg h250, if_neg h55x]
              rw [vsmtp_other o st e hbad hc hstrue hmn h250 h55x]
              refine ⟨by rw [hres], ⟨?_, ?_, hmx3, ?_⟩, ?_, ?_⟩
              · intro e2 r2 hl
                dsimp only at hl
                rw [hmxs] at hl
                rcases lookupAssoc_append_cases hl with hl | ⟨rfl, rfl⟩
                · exact h1 e2 r2 hl
                · exact hres.symm
              · intro d2 b2 hb
                dsimp only at hb
                rw [hmxc] at hb
                exact h2 d2 b2 hb
              · intro e2 r2 hl hdel
                dsimp only at hl ⊢
                rw [hmxs] at hl
                rw [hmxc]
                rcases lookupAssoc_append_cases hl with hl | ⟨rfl, rfl⟩
                · exact h4 e2 r2 hl hdel
                · exact absurd hdel (by simp)
              · intro d b2 hb
                dsimp only
                rw [hmxc]
                exact hb
              · intro _
                dsimp only
                rw [hmxs, hres]
                exact lookupAssoc_append_new hc _
          -- catch-all cache hit, code 250
          · have hb2 : b = o.randomAccept (pyLower (rsplitAtSign e).2) := by
              apply h2
              rw [← hmxc]
              exact hcc
            have hres : smtpResultOf o e =
                { deliverable := some true, smtp_code := 250, catch_all := b } := by
              simp only [smtpResultOf]
              rw [if_neg hbad, if_neg hs]
              rcases hmx2 : o.mxHost (pyLower (rsplitAtSign e).2) with _ | host
              · rw [← hm1] at hmx2; exact absurd hmx2 hmn
              · dsimp only
                rw [if_pos h250, ← hb2]
            rw [vsmtp_250_hit o st e b hbad hc hstrue hmn h250 hcc]
            refine ⟨by rw [hres], ⟨?_, ?_, hmx3, ?_⟩, ?_, ?_⟩
            · intro e2 r2 hl
              dsimp only at hl
              rw [hmxs] at hl
              rcases lookupAssoc_append_cases hl with hl | ⟨rfl, rfl⟩
              · exact h1 e2 r2 hl
              · exact hres.symm
            · intro d2 b2 hb
              dsimp only at hb
              rw [hmxc] at hb
              exact h2 d2 b2 hb
            · intro e2 r2 hl hdel
              dsimp only at hl ⊢
              rw [hmxs] at hl
              rw [hmxc]
              rcases lookupAssoc_append_cases hl with hl | ⟨rfl, rfl⟩
              · exact h4 e2 r2 hl hdel
              · rw [← hmxc]
                exact hcc
            · intro d b2 hb
              dsimp only
              rw [hmxc]
              exact hb
            · intro _
              dsimp only
              rw [hmxs, hres]
              exact lookupAssoc_append_new hc _
          -- catch-all cache hit, code not 250: same as the miss non-250 cases
          · by_cases h55x : o.rcptCode e = 550 ∨ o.rcptCode e = 551 ∨
                o.rcptCode e = 552 ∨ o.rcptCode e = 553
            · have hres : smtpResultOf o e =
                  { deliverable := some false, smtp_code := o.rcptCode e,
                    catch_all := false } := by
                simp only [smtpResultOf]
                rw [if_neg hbad, if_neg hs]
                rcases hmx2 : o.mxHost (pyLower (rsplitAtSign e).2) with _ | host
                · rw [← hm1] at hmx2; exact absurd hmx2 hmn
                · dsimp only
                  rw [if_neg h250, if_pos h55x]
              rw [vsmtp_neg o st e hbad hc hstrue hmn h250 h55x]
              refine ⟨by rw [hres], ⟨?_, ?_, hmx3, ?_⟩, ?_, ?_⟩
              · intro e2 r2 hl
                dsimp only at hl
                rw [hmxs] at hl
                rcases lookupAssoc_append_cases hl with hl | ⟨rfl, rfl⟩
                · exact h1 e2 r2 hl
                · exact hres.symm
              · intro d2 b2 hb
                dsimp only at hb
                rw [hmxc] at hb
                exact h2 d2 b2 hb
              · intro e2 r2 hl hdel
                dsimp only at hl ⊢
                rw [hmxs] at hl
                rw [hmxc]
                rcases lookupAssoc_append_cases hl with hl | ⟨rfl, rfl⟩
                · exact h4 e2 r2 hl hdel
                · exact absurd hdel (by simp)
              · intro d b2 hb
                dsimp only
                rw [hmxc]
                exact hb
              · intro _
                dsimp only
                rw [hmxs, hres]
                exact lookupAssoc_append_new hc _
            · have hres : smtpResultOf o e =
                  { deliverable := none, smtp_code := o.rcptCode e,
                    catch_all := false } := by
                simp only [smtpResultOf]
                rw [if_neg hbad, if_neg hs]
                rcases hmx2 : o.mxHost (pyLower (rsplitAtSign e).2) with _ | host
                · rw [← hm1] at hmx2; exact absurd hmx2 hmn
                · dsimp only
                  rw [if_neg h250, if_neg h55x]
              rw [vsmtp_other o st e hbad hc hstrue hmn h250 h55x]
              refine ⟨by rw [hres], ⟨?_, ?_, hmx3, ?_⟩, ?_, ?_⟩
              · intro e2 r2 hl
                dsimp only at hl
                rw [hmxs] at hl
                rcases lookupAssoc_append_cases hl with hl | ⟨rfl, rfl⟩
                · exact h1 e2 r2 hl
                · exact hres.symm
              · intro d2 b2 hb
                dsimp only at hb
                rw [hmxc] at hb
                exact h2 d2 b2 hb
              · intro e2 r2 hl hdel
                dsimp only at hl ⊢
                rw [hmxs] at hl
                rw [hmxc]
                rcases lookupAssoc_append_cases hl with hl | ⟨rfl, rfl⟩
                · exact h4 e2 r2 hl hdel
                · exact absurd hdel (by simp)
              · intro d b2 hb
                dsimp only
                rw [hmxc]
                exact hb
              · intro _
                dsimp only
                rw [hmxs, hres]
                exact lookupAssoc_append_new hc _
    · rw [vsmtp_hit o st e r hbad hc]
      have hr := h1 e r hc
      exact ⟨hr, ⟨h1, h2, h3, h4⟩, fun d b hb => hb,
        fun _ => by rw [hc, hr]⟩

/-- Helper: the SMTP batch fold yields the cache-free denotation for
every email, keeps the state consistent, and records the catch-all
verdict for every domain on which some processed email was
deliverable. -/
theorem smtp_fold_spec (o : SmtpOracle) :
    ∀ (emails : List String) (st : SmtpState), SmtpInv o st →
      ((mapAccumLeads (fun st e =>
          let r := verify_smtp o st e
          (r.2, (e, r.1))) st emails).2.map Prod.fst = emails) ∧
      (∀ pr ∈ (mapAccumLeads (fun st e =>
          let r := verify_smtp o st e
          (r.2, (e, r.1))) st emails).2, pr.2 = smtpResultOf o pr.1) ∧
      (∀ (d : String) (b : Bool), lookupAssoc st.catch_all_cache d = some b →
        lookupAssoc (mapAccumLeads (fun st e =>
          let r := verify_smtp o st e
          (r.2, (e, r.1))) st emails).1.catch_all_cache d = some b) ∧
      (∀ e ∈ emails, ¬ (e = "" ∨ ¬ substrB "@" e = true) →
        (smtpResultOf o e).deliverable = some true →
        lookupAssoc (mapAccumLeads (fun st e =>
          let r := verify_smtp o st e
          (r.2, (e, r.1))) st emails).1.catch_all_cache
          (pyLower (rsplitAtSign e).2) = some (smtpResultOf o e).catch_all) := by
  intro emails
  induction emails with
  | nil =>
    intro st hinv
    exact ⟨rfl, by simp [mapAccumLeads], fun d b hb => hb, by simp⟩
  | cons e rest ih =>
    intro st hinv
    obtain ⟨hr1, hinv2, hmono, hcached⟩ := verify_smtp_inv o st e hinv
    obtain ⟨ih0, ih1, ih2, ih3⟩ := ih (verify_smtp o st e).2 hinv2
    refine ⟨?_, ?_, ?_, ?_⟩
    · simp only [mapAccumLeads, List.map_cons]
      rw [ih0]
    · intro pr hpr
      simp only [mapAccumLeads] at hpr
      rcases List.mem_cons.mp hpr with rfl | hpr2
      · exact hr1
      · exact ih1 pr hpr2
    · intro d b hb
      simp only [mapAccumLeads]
      exact ih2 d b (hmono d b hb)
    · intro e2 he2 hwf hdel
      simp only [mapAccumLeads]
      rcases List.mem_cons.mp he2 with rfl | he2r
      · have hsc := hcached hwf
        have hcc := hinv2.2.2.2 e2 (smtpResultOf o e2) hsc hdel
        exact ih2 _ _ hcc
      · exact ih3 e2 he2r hwf hdel

/-- Helper: looking up any listed key in a result list whose values are
pointwise given by a function returns that function's value. -/
theorem lookup_result_list (f : String → SmtpResult) :
    ∀ (l : List (String × SmtpResult)) (e : String),
      (∀ pr ∈ l, pr.2 = f pr.1) → e ∈ l.map Prod.fst →
      lookupAssoc l e = some (f e) := by
  intro l
  induction l with
  | nil => intro e _ he; simp at he
  | cons pr rest ih =>
    intro e hval he
    rw [lookupAssoc_cons]
    by_cases hk : pr.1 = e
    · rw [if_pos hk]
      rw [hval pr (List.mem_cons_self _ _), hk]
    · rw [if_neg hk]
      rw [List.map_cons] at he
      rcases List.mem_cons.mp he with heq | he2
      · exact absurd heq.symm hk
      · exact ih e (fun q hq => hval q (List.mem_cons_of_mem _ hq)) he2

/-- Helper: the empty SMTP state is consistent with any oracle. -/
theorem smtpInv_empty (o : SmtpOracle) : SmtpInv o {} := by
  refine ⟨?_, ?_, ?_, ?_⟩ <;> intro a b hb <;> simp [lookupAssoc] at hb

/-- C7: for a domain whose mail exchange answers RCPT TO with 250 for
the random 14-character catch-all probe, SMTP verification records
catch_all = true for that domain in the validator's domain cache, and
every lead at that domain whose own RCPT probe answered 250 is tagged
with the downgraded "catch_all" provenance rather than "verified". -/
theorem c7_catchall_downgrade (o : SmtpOracle) (leads : List Lead) (l : Lead)
    (hmem : l ∈ leads)
    (hself : o.selfTest = true)
    (hne : l.email ≠ "") (hna : l.email ≠ "N/A")
    (hat : substrB "@" l.email = true)
    (hmx : o.mxHost (pyLower (rsplitAtSign l.email).2) ≠ none)
    (hrcpt : o.rcptCode l.email = 250)
    (hca : o.randomAccept (pyLower (rsplitAtSign l.email).2) = true) :
    { l with email_status := "catch_all" } ∈ smtpStage o leads ∧
    lookupAssoc (verify_smtp_batch o
        ((leads.filter (fun l2 =>
            l2.email ≠ "" ∧ l2.email ≠ "N/A" ∧ substrB "@" l2.email)).map
          (fun l2 => l2.email))).2.catch_all_cache
      (pyLower (rsplitAtSign l.email).2) = some true := by
  have hwf : ¬ (l.email = "" ∨ ¬ substrB "@" l.email = true) := by
    intro hcon
    rcases hcon with hcon | hcon
    · exact hne hcon
    · exact hcon hat
  have hres : smtpResultOf o l.email =
      { deliverable := some true, smtp_code := 250, catch_all := true } := by
    simp only [smtpResultOf]
    rw [if_neg hwf, if_neg (by rw [hself]; exact fun hf => absurd hf (by decide))]
    rcases hmx2 : o.mxHost (pyLower (rsplitAtSign l.email).2) with _ | host
    · exact absurd hmx2 hmx
    · dsimp only
      rw [if_pos hrcpt, hca]
  have hp : l ∈ leads.filter (fun l2 =>
      l2.email ≠ "" ∧ l2.email ≠ "N/A" ∧ substrB "@" l2.email) := by
    rw [List.mem_filter]
    exact ⟨hmem, by simp [hne, hna, hat]⟩
  have hcne : leads.filter (fun l2 =>
      l2.email ≠ "" ∧ l2.email ≠ "N/A" ∧ substrB "@" l2.email) ≠ [] :=
    List.ne_nil_of_mem hp
  have hemem : l.email ∈ (leads.filter (fun l2 =>
      l2.email ≠ "" ∧ l2.email ≠ "N/A" ∧ substrB "@" l2.email)).map
      (fun l2 => l2.email) := List.mem_map_of_mem _ hp
  have hbatch : verify_smtp_batch o ((leads.filter (fun l2 =>
      l2.email ≠ "" ∧ l2.email ≠ "N/A" ∧ substrB "@" l2.email)).map
      (fun l2 => l2.email)) =
      (let pr := mapAccumLeads (fun st e =>
          let r := verify_smtp o st e
          (r.2, (e, r.1))) ({} : SmtpState) ((leads.filter (fun l2 =>
            l2.email ≠ "" ∧ l2.email ≠ "N/A" ∧ substrB "@" l2.email)).map
          (fun l2 => l2.email))
       (pr.2, pr.1)) := by
    simp only [verify_smtp_batch]
    rw [if_neg (by simp [hself])]
  obtain ⟨hm0, hm1, hm2, hm3⟩ := smtp_fold_spec o ((leads.filter (fun l2 =>
      l2.email ≠ "" ∧ l2.email ≠ "N/A" ∧ substrB "@" l2.email)).map
      (fun l2 => l2.email)) {} (smtpInv_empty o)
  have hlookup : lookupAssoc (verify_smtp_batch o ((leads.filter (fun l2 =>
      l2.email ≠ "" ∧ l2.email ≠ "N/A" ∧ substrB "@" l2.email)).map
      (fun l2 => l2.email))).1 l.email = some (smtpResultOf o l.email) := by
    rw [hbatch]
    exact lookup_result_list (smtpResultOf o) _ l.email hm1 (by rw [hm0]; exact hemem)
  constructor
  · have hstage : smtpStage o leads = leads.map (smtpUpdate
        (verify_smtp_batch o ((leads.filter (fun l2 =>
          l2.email ≠ "" ∧ l2.email ≠ "N/A" ∧ substrB "@" l2.email)).map
          (fun l2 => l2.email))).1) := by
      simp only [smtpStage]
      rw [if_neg hcne]
    have hupd : smtpUpdate (verify_smtp_batch o ((leads.filter (fun l2 =>
        l2.email ≠ "" ∧ l2.email ≠ "N/A" ∧ substrB "@" l2.email)).map
        (fun l2 => l2.email))).1 l = { l with email_status := "catch_all" } := by
      unfold smtpUpdate
      rw [if_pos ⟨hne, hna, hat⟩, hlookup, hres]
      dsimp only
      rw [if_pos rfl, if_pos rfl]
    rw [hstage]
    exact hupd ▸ List.mem_map_of_mem _ hmem
  · have := hm3 l.email hemem hwf (by rw [hres])
    rw [hres] at this
    rw [hbatch]
    exact this

/-- C7 witness. -/
theorem c7_catchall_downgrade_witness :
    { johnResolved with email_status := "catch_all" } ∈
      smtpStage acmeSmtpOracle [johnResolved] ∧
    lookupAssoc (verify_smtp_batch acmeSmtpOracle
        (([johnResolved].filter (fun l2 =>
            l2.email ≠ "" ∧ l2.email ≠ "N/A" ∧ substrB "@" l2.email)).map
          (fun l2 => l2.email))).2.catch_all_cache
      (pyLower (rsplitAtSign johnResolved.email).2) = some true :=
  c7_catchall_downgrade acmeSmtpOracle [johnResolved] johnResolved
    (by decide) rfl (by decide) (by decide) (by decide)
    (by decide) rfl (by decide)

/-- Helper: membership preservation through a state-threading rewrite
pass whose step respects a property. -/
theorem mapAccum_mem {σ α β : Type} (f : σ → α → σ × β) (P : α → Prop)
    (Q : β → Prop) (hf : ∀ (s : σ) (a : α), P a → Q (f s a).2) :
    ∀ (l : List α) (s : σ), (∀ a ∈ l, P a) →
      ∀ b ∈ (mapAccumLeads f s l).2, Q b := by
  intro l
  induction l with
  | nil => intro s _ b hb; simp [mapAccumLeads] at hb
  | cons a rest ih =>
    intro s h b hb
    simp only [mapAccumLeads] at hb
    rcases List.mem_cons.mp hb with rfl | hb2
    · exact hf s a (h a (List.mem_cons_self a rest))
    · exact ih _ (fun x hx => h x (List.mem_cons_of_mem _ hx)) b hb2

/-- Helper: membership preservation through List.map. -/
theorem map_mem_pres {α : Type} (f : α → α) (P : α → Prop)
    (hf : ∀ a, P a → P (f a)) (l : List α) (h : ∀ a ∈ l, P a) :
    ∀ b ∈ l.map f, P b := by
  intro b hb
  rcases List.mem_map.mp hb with ⟨a, ha, rfl⟩
  exact hf a (h a ha)

/-- Helper: membership preservation through a fold whose step maps lead
lists to lead lists. -/
theorem foldl_mem_pres {β : Type} (step : List Lead → β → List Lead)
    (P : Lead → Prop)
    (hstep : ∀ (ls : List Lead) (b : β), (∀ l ∈ ls, P l) →
      ∀ l2 ∈ step ls b, P l2) :
    ∀ (bs : List β) (ls : List Lead), (∀ l ∈ ls, P l) →
      ∀ l2 ∈ List.foldl step ls bs, P l2 := by
  intro bs
  induction bs with
  | nil => intro ls h l2 hl2; exact h l2 hl2
  | cons b rest ih =>
    intro ls h l2 hl2
    rw [List.foldl_cons] at hl2
    exact ih (step ls b) (hstep ls b h) l2 hl2

/-- Helper: the shared best-match pass only writes its own tag. -/
theorem bestAssignModule_pres (tag d : String) (htag : tag ∈ PRE_TAGS)
    (pool : List String) (leads : List Lead)
    (h : ∀ l ∈ leads, l.email_status ∈ PRE_TAGS) :
    ∀ l2 ∈ (bestAssignModule tag d pool leads).2, l2.email_status ∈ PRE_TAGS := by
  unfold bestAssignModule
  refine mapAccum_mem _ (fun l : Lead => l.email_status ∈ PRE_TAGS)
    (fun l : Lead => l.email_status ∈ PRE_TAGS) ?_ leads pool h
  intro s a ha
  dsimp only
  split
  · split
    · split
      · exact htag
      · exact ha
    · exact ha
  · exact ha

/-- Helper: the DNS strict fallback pass only writes dns_harvest. -/
theorem dnsFallbackPass_pres (d : String) (pool : List String)
    (leads : List Lead) (h : ∀ l ∈ leads, l.email_status ∈ PRE_TAGS) :
    ∀ l2 ∈ (dnsFallbackPass d pool leads).2, l2.email_status ∈ PRE_TAGS := by
  unfold dnsFallbackPass
  refine mapAccum_mem _ (fun l : Lead => l.email_status ∈ PRE_TAGS)
    (fun l : Lead => l.email_status ∈ PRE_TAGS) ?_ leads pool h
  intro s a ha
  dsimp only
  split
  · split
    · exact (by decide : "dns_harvest" ∈ PRE_TAGS)
    · exact ha
  · exact ha

/-- Helper: the DNS harvester stage keeps every status in PRE_TAGS. -/
theorem dns_enrich_pres (search : String → List String) (leads : List Lead)
    (h : ∀ l ∈ leads, l.email_status ∈ PRE_TAGS) :
    ∀ l2 ∈ dns_enrich search leads, l2.email_status ∈ PRE_TAGS := by
  unfold dns_enrich
  split
  · exact h
  · refine foldl_mem_pres _ (fun l => l.email_status ∈ PRE_TAGS) ?_
      (moduleDomains leads) leads h
    intro ls d hls l2 hl2
    dsimp only at hl2
    by_cases hp : search d = []
    · rw [if_pos hp] at hl2
      exact hls l2 hl2
    · rw [if_neg hp] at hl2
      exact dnsFallbackPass_pres d _ _
        (bestAssignModule_pres "dns_harvest" d (by decide) _ ls hls) l2 hl2

/-- Helper: the dorker per-person pass only writes dorked. -/
theorem dorkPersonPass_pres (person : String → String → Option String)
    (d : String) (leads : List Lead)
    (h : ∀ l ∈ leads, l.email_status ∈ PRE_TAGS) :
    ∀ l2 ∈ (dorkPersonPass person d leads).2, l2.email_status ∈ PRE_TAGS := by
  unfold dorkPersonPass
  refine mapAccum_mem _ (fun l : Lead => l.email_status ∈ PRE_TAGS)
    (fun l : Lead => l.email_status ∈ PRE_TAGS) ?_ leads 0 h
  intro s a ha
  dsimp only
  split
  · split
    · exact (by decide : "dorked" ∈ PRE_TAGS)
    · exact ha
  · exact ha

/-- Helper: the Google dork stage keeps every status in PRE_TAGS. -/
theorem dork_enrich_pres (search : String → List String)
    (person : String → String → Option String) (leads : List Lead)
    (h : ∀ l ∈ leads, l.email_status ∈ PRE_TAGS) :
    ∀ l2 ∈ dork_enrich search person leads, l2.email_status ∈ PRE_TAGS := by
  unfold dork_enrich
  split
  · exact h
  · refine foldl_mem_pres _ (fun l => l.email_status ∈ PRE_TAGS) ?_
      (moduleDomains leads) leads h
    intro ls d hls l2 hl2
    dsimp only at hl2
    by_cases hp : search d = []
    · rw [if_pos hp] at hl2
      exact dorkPersonPass_pres person d ls hls l2 hl2
    · rw [if_neg hp] at hl2
      exact dorkPersonPass_pres person d _
        (bestAssignModule_pres "dorked" d (by decide) _ ls hls) l2 hl2

/-- Helper: the Gravatar stage keeps every status in PRE_TAGS. -/
theorem gravatar_enrich_pres (probe : String → Bool) (leads : List Lead)
    (h : ∀ l ∈ leads, l.email_status ∈ PRE_TAGS) :
    ∀ l2 ∈ gravatar_enrich probe leads, l2.email_status ∈ PRE_TAGS := by
  unfold gravatar_enrich
  split
  · exact h
  · refine map_mem_pres _ (fun l => l.email_status ∈ PRE_TAGS) ?_ leads h
    intro a ha
    dsimp only
    split
    · exact ha
    · split
      · split
        · exact (by decide : "gravatar_confirmed" ∈ PRE_TAGS)
        · exact ha
      · exact ha

/-- Helper: the PGP stage keeps every status in PRE_TAGS. -/
theorem pgp_enrich_pres (searchName : String → Option String → List String)
    (leads : List Lead) (h : ∀ l ∈ leads, l.email_status ∈ PRE_TAGS) :
    ∀ l2 ∈ pgp_enrich searchName leads, l2.email_status ∈ PRE_TAGS := by
  unfold pgp_enrich
  split
  · exact h
  · refine map_mem_pres _ (fun l => l.email_status ∈ PRE_TAGS) ?_ leads h
    intro a ha
    dsimp only
    split
    · exact ha
    · split
      · exact ha
      · exact (by decide : "pgp_keyserver" ∈ PRE_TAGS)

/-- Helper: the GitHub per-person pass only writes github. -/
theorem githubPersonPass_pres (person : String → String → List String)
    (d : String) (leads : List Lead)
    (h : ∀ l ∈ leads, l.email_status ∈ PRE_TAGS) :
    ∀ l2 ∈ (githubPersonPass person d leads).2, l2.email_status ∈ PRE_TAGS := by
  unfold githubPersonPass
  refine mapAccum_mem _ (fun l : Lead => l.email_status ∈ PRE_TAGS)
    (fun l : Lead => l.email_status ∈ PRE_TAGS) ?_ leads 0 h
  intro s a ha
  dsimp only
  split
  · split
    · exact (by decide : "github" ∈ PRE_TAGS)
    · exact ha
  · exact ha

/-- Helper: the GitHub stage keeps every status in PRE_TAGS. -/
theorem github_enrich_pres (search : String → List String)
    (person : String → String → List String) (leads : List Lead)
    (h : ∀ l ∈ leads, l.email_status ∈ PRE_TAGS) :
    ∀ l2 ∈ github_enrich search person leads, l2.email_status ∈ PRE_TAGS := by
  unfold github_enrich
  split
  · exact h
  · refine foldl_mem_pres _ (fun l => l.email_status ∈ PRE_TAGS) ?_
      (moduleDomains leads) leads h
    intro ls d hls l2 hl2
    dsimp only at hl2
    by_cases hp : search d = []
    · rw [if_pos hp] at hl2
      exact githubPersonPass_pres person d ls hls l2 hl2
    · rw [if_neg hp] at hl2
      exact githubPersonPass_pres person d _
        (bestAssignModule_pres "github" d (by decide) _ ls hls) l2 hl2

/-- Helper: the SEC EDGAR stage keeps every status in PRE_TAGS. -/
theorem edgar_enrich_pres (search : String → List String) (leads : List Lead)
    (h : ∀ l ∈ leads, l.email_status ∈ PRE_TAGS) :
    ∀ l2 ∈ edgar_enrich search leads, l2.email_status ∈ PRE_TAGS := by
  unfold edgar_enrich
  split
  · exact h
  · refine foldl_mem_pres _ (fun l => l.email_status ∈ PRE_TAGS) ?_
      (moduleDomains leads) leads h
    intro ls d hls l2 hl2
    dsimp only at hl2
    by_cases hp : search d = []
    · rw [if_pos hp] at hl2
      exact hls l2 hl2
    · rw [if_neg hp] at hl2
      exact bestAssignModule_pres "sec_edgar" d (by decide) _ ls hls l2 hl2

/-- Helper: the Wayback stage keeps every status in PRE_TAGS. -/
theorem wayback_enrich_pres (search : String → List String) (leads : List Lead)
    (h : ∀ l ∈ leads, l.email_status ∈ PRE_TAGS) :
    ∀ l2 ∈ wayback_enrich search leads, l2.email_status ∈ PRE_TAGS := by
  unfold wayback_enrich
  split
  · exact h
  · refine foldl_mem_pres _ (fun l => l.email_status ∈ PRE_TAGS) ?_
      (moduleDomains leads) leads h
    intro ls d hls l2 hl2
    dsimp only at hl2
    by_cases hp : search d = []
    · rw [if_pos hp] at hl2
      exact hls l2 hl2
    · rw [if_neg hp] at hl2
      exact bestAssignModule_pres "wayback" d (by decide) _ ls hls l2 hl2

/-- Helper: catch-all generation only writes catch_all_generated. -/
theorem catchAllGenerate_pres (d : String) (leads : List Lead)
    (h : ∀ l ∈ leads, l.email_status ∈ PRE_TAGS) :
    ∀ l2 ∈ catchAllGenerate d leads, l2.email_status ∈ PRE_TAGS := by
  unfold catchAllGenerate
  refine map_mem_pres _ (fun l => l.email_status ∈ PRE_TAGS) ?_ leads h
  intro a ha
  dsimp only
  split
  · exact (by decide : "catch_all_generated" ∈ PRE_TAGS)
  · exact ha

/-- Helper: the JS fallback distribution only writes js_scrape. -/
theorem jsFallbackPass_pres (d : String) (pool : List String)
    (leads : List Lead) (h : ∀ l ∈ leads, l.email_status ∈ PRE_TAGS) :
    ∀ l2 ∈ (jsFallbackPass d pool leads).2, l2.email_status ∈ PRE_TAGS := by
  unfold jsFallbackPass
  refine mapAccum_mem _ (fun l : Lead => l.email_status ∈ PRE_TAGS)
    (fun l : Lead => l.email_status ∈ PRE_TAGS) ?_ leads pool h
  intro s a ha
  dsimp only
  split
  · split
    · exact ha
    · exact (by decide : "js_scrape" ∈ PRE_TAGS)
  · exact ha

/-- Helper: the catch-all/JS stage keeps every status in PRE_TAGS. -/
theorem catchall_enrich_pres (o : CatchAllOracle) (leads : List Lead)
    (h : ∀ l ∈ leads, l.email_status ∈ PRE_TAGS) :
    ∀ l2 ∈ catchall_enrich o leads, l2.email_status ∈ PRE_TAGS := by
  unfold catchall_enrich
  split
  · exact h
  · refine foldl_mem_pres _ (fun l => l.email_status ∈ PRE_TAGS) ?_
      (moduleDomains leads) leads h
    intro ls d hls l2 hl2
    dsimp only at hl2
    by_cases hca : o.isCatchAll d = true
    · rw [if_pos hca] at hl2
      exact catchAllGenerate_pres d ls hls l2 hl2
    · rw [if_neg hca] at hl2
      by_cases hp : o.jsEmails d = []
      · rw [if_pos hp] at hl2
        exact hls l2 hl2
      · rw [if_neg hp] at hl2
        exact jsFallbackPass_pres d _ _
          (bestAssignModule_pres "js_scrape" d (by decide) _ ls hls) l2 hl2

/-- Helper: the fund-row filter preserves any member property. -/
theorem filterFundRows_pres (P : Lead → Prop) (leads : List Lead)
    (h : ∀ l ∈ leads, P l) : ∀ l2 ∈ filterFundRows leads, P l2 := by
  intro l2 hl2
  exact h l2 (List.mem_of_mem_filter hl2)

/-- Helper: validation rewrites only the email field. -/
theorem validateStage_pres (o : DnsOracle) (leads : List Lead)
    (h : ∀ l ∈ leads, l.email_status ∈ PRE_TAGS) :
    ∀ l2 ∈ validateStage o leads, l2.email_status ∈ PRE_TAGS := by
  unfold validateStage
  refine mapAccum_mem _ (fun l : Lead => l.email_status ∈ PRE_TAGS)
    (fun l : Lead => l.email_status ∈ PRE_TAGS) ?_ leads [] h
  intro s a ha
  dsimp only
  repeat' split
  all_goals exact ha

/-- Helper: the scraped-marking sweep keeps statuses in PRE_TAGS. -/
theorem markScraped_pres (leads : List Lead)
    (h : ∀ l ∈ leads, l.email_status ∈ PRE_TAGS) :
    ∀ l2 ∈ markScraped leads, l2.email_status ∈ PRE_TAGS := by
  unfold markScraped
  refine map_mem_pres _ (fun l => l.email_status ∈ PRE_TAGS) ?_ leads h
  intro a ha
  dsimp only
  split
  · exact (by decide : "scraped" ∈ PRE_TAGS)
  · exact ha

/-- Helper: the guessed-marking sweep keeps statuses in PRE_TAGS. -/
theorem markGuessed_pres (leads : List Lead)
    (h : ∀ l ∈ leads, l.email_status ∈ PRE_TAGS) :
    ∀ l2 ∈ markGuessed leads, l2.email_status ∈ PRE_TAGS := by
  unfold markGuessed
  refine map_mem_pres _ (fun l => l.email_status ∈ PRE_TAGS) ?_ leads h
  intro a ha
  dsimp only
  split
  · exact (by decide : "guessed" ∈ PRE_TAGS)
  · exact ha

/-- Helper: the greyhat-marking sweep keeps statuses in PRE_TAGS. -/
theorem markGreyhat_pres (leads : List Lead)
    (h : ∀ l ∈ leads, l.email_status ∈ PRE_TAGS) :
    ∀ l2 ∈ markGreyhat leads, l2.email_status ∈ PRE_TAGS := by
  unfold markGreyhat
  refine map_mem_pres _ (fun l => l.email_status ∈ PRE_TAGS) ?_ leads h
  intro a ha
  dsimp only
  split
  · exact (by decide : "greyhat" ∈ PRE_TAGS)
  · exact ha

/-- Helper: the guesser assigns emails but never touches statuses. -/
theorem guess_batch_pres (o : GuessOracle) (leads : List Lead)
    (h : ∀ l ∈ leads, l.email_status ∈ PRE_TAGS) :
    ∀ l2 ∈ (guess_batch o leads).2, l2.email_status ∈ PRE_TAGS := by
  unfold guess_batch
  dsimp only
  have happly : ∀ l2 ∈ guessApplyPhase
      (guessProbePhase o (guessLearnPhase [] leads) leads) leads,
      l2.email_status ∈ PRE_TAGS := by
    unfold guessApplyPhase
    refine map_mem_pres _ (fun l => l.email_status ∈ PRE_TAGS) ?_ leads h
    intro a ha
    dsimp only
    split
    · exact ha
    · split
      · exact ha
      · split
        · split
          · exact ha
          · exact ha
        · exact ha
  refine mapAccum_mem _ (fun l : Lead => l.email_status ∈ PRE_TAGS)
    (fun l : Lead => l.email_status ∈ PRE_TAGS) ?_ _ _ happly
  intro s a ha
  unfold guessStep
  split
  · exact ha
  · split
    · exact ha
    · dsimp only
      cases hgo : (guessOne o s a.name a.website).1 <;> simp only [hgo] <;>
        exact ha

/-- Helper: the greyhat run keeps every status in PRE_TAGS. -/
theorem run_greyhat_pres (po : PipelineOracle) (leads : List Lead)
    (h : ∀ l ∈ leads, l.email_status ∈ PRE_TAGS) :
    ∀ l2 ∈ run_greyhat po leads, l2.email_status ∈ PRE_TAGS := by
  unfold run_greyhat
  exact markGreyhat_pres _ (catchall_enrich_pres po.catchall _
    (wayback_enrich_pres po.waybackSearch _ (edgar_enrich_pres po.edgarSearch _
      (github_enrich_pres po.githubSearch po.githubPerson _
        (pgp_enrich_pres po.pgpSearch _ (gravatar_enrich_pres po.gravatarProbe _
          (dork_enrich_pres po.dorkSearch po.dorkPerson _
            (dns_enrich_pres po.dnsHarvest _ h))))))))

/-- Helper: the SMTP stage turns PRE_TAGS statuses into TAGS statuses
and only tags "verified" leads whose email passed the non-sentinel,
contains-an-at-sign candidate filter. -/
theorem smtpStage_establishes (o : SmtpOracle) (leads : List Lead)
    (h : ∀ l ∈ leads, l.email_status ∈ PRE_TAGS) :
    ∀ l2 ∈ smtpStage o leads, l2.email_status ∈ TAGS ∧
      (l2.email_status = "verified" → sentinelEmail l2.email = false) := by
  have hpre : ∀ l : Lead, l.email_status ∈ PRE_TAGS →
      l.email_status ∈ TAGS ∧
        (l.email_status = "verified" → sentinelEmail l.email = false) := by
    intro l hl
    constructor
    · unfold TAGS
      exact List.mem_append_left _ hl
    · intro hv
      rw [hv] at hl
      exact absurd hl (by decide)
  unfold smtpStage
  dsimp only
  split
  · intro l2 hl2
    exact hpre l2 (h l2 hl2)
  · intro l2 hl2
    rcases List.mem_map.mp hl2 with ⟨a, ha, rfl⟩
    have hP := h a ha
    unfold smtpUpdate
    by_cases hg : a.email ≠ "" ∧ a.email ≠ "N/A" ∧ substrB "@" a.email = true
    · rw [if_pos hg]
      have hsent : sentinelEmail a.email = false := by
        have hni : a.email ≠ "N/A (invalid)" := by
          intro hEq
          have hfalse : substrB "@" a.email = false := by
            rw [hEq]; decide
          rw [hfalse] at hg
          exact absurd hg.2.2 (by decide)
        simp [sentinelEmail, hg.1, hg.2.1, hni]
      rcases hlk : lookupAssoc
          (verify_smtp_batch o ((leads.filter (fun l =>
            l.email ≠ "" ∧ l.email ≠ "N/A" ∧ substrB "@" l.email)).map
            (fun l => l.email))).1 a.email with _ | r
      all_goals rw [hlk]
      · exact hpre a hP
      · dsimp only
        split
        · split
          · exact ⟨(by decide : "catch_all" ∈ TAGS),
              fun hv => absurd hv (by decide : ¬ "catch_all" = "verified")⟩
          · exact ⟨(by decide : "verified" ∈ TAGS), fun _ => hsent⟩
        · split
          · exact ⟨(by decide : "undeliverable" ∈ TAGS),
              fun hv => absurd hv (by decide : ¬ "undeliverable" = "verified")⟩
          · exact hpre a hP
    · rw [if_neg hg]
      exact hpre a hP

/-- C1: for every contact the pipeline outputs, the email-provenance
tag is one of the defined tags, and a contact carrying the "verified"
tag never holds a sentinel email value (so a sentinel email never
coexists with "verified"). -/
theorem c1_provenance_consistency (po : PipelineOracle) (leads : List Lead)
    (h : ∀ l ∈ leads, l.email_status = "unknown") :
    ∀ l2 ∈ enrich_and_output po leads,
      l2.email_status ∈ TAGS ∧
        (l2.email_status = "verified" → sentinelEmail l2.email = false) := by
  have h0 : ∀ l ∈ leads, l.email_status ∈ PRE_TAGS := by
    intro l hl
    rw [h l hl]
    decide
  have h1 := filterFundRows_pres (fun l => l.email_status ∈ PRE_TAGS) leads h0
  have h2 := validateStage_pres po.dns _ h1
  have h3 := markScraped_pres _ h2
  have h4 := guess_batch_pres po.guess _ h3
  have h5 := markGuessed_pres _ h4
  have h6 := run_greyhat_pres po _ h5
  have h7 := smtpStage_establishes po.smtp _ h6
  intro l2 hl2
  have hl2b : l2 ∈ ((smtpStage po.smtp (run_greyhat po (markGuessed
      ((guess_batch po.guess (markScraped (validateStage po.dns
        (filterFundRows leads)))).2)))).map
      (assign_score po.scoring)).mergeSort
      (fun a b => b.lead_score ≤ a.lead_score) := hl2
  have hl3 : l2 ∈ (smtpStage po.smtp (run_greyhat po (markGuessed
      ((guess_batch po.guess (markScraped (validateStage po.dns
        (filterFundRows leads)))).2)))).map (assign_score po.scoring) :=
    (List.mergeSort_perm _ (fun a b => b.lead_score ≤ a.lead_score)).subset hl2b
  rcases List.mem_map.mp hl3 with ⟨a, ha, rfl⟩
  exact h7 a ha

/-- C1 witness. -/
theorem c1_provenance_consistency_witness :
    (∀ l ∈ [johnResolved, janeUnresolved], l.email_status = "unknown") ∧
    ∀ l2 ∈ enrich_and_output acmePipelineOracle [johnResolved, janeUnresolved],
      l2.email_status ∈ TAGS ∧
        (l2.email_status = "verified" → sentinelEmail l2.email = false) :=
  ⟨by decide,
   c1_provenance_consistency acmePipelineOracle [johnResolved, janeUnresolved]
     (by decide)⟩
